import Mathlib

/-!
# Device-twin gateway (Go package `dmcontext`)

A shallow embedding of `dmcontext/context.go` and a verification of its report
filter, callback registry and message processing.

Conventions of the embedding.

* A Go `map[string]T` is a `GoMap T`: an association list that holds at most one
  binding per key; `for k, v := range m` visits the list in order, and every
  statement about a loop is proved for every order.
* A Go `interface{}` is a `Value`: its dynamic type and its content.
* A `float64` is a `Float64`: NaN, an infinity, or a finite value given by its sign
  and its magnitude counted in units of `2^-1074` (every finite float64 is a whole
  number of these units).  The operations compute the exact result and round it to
  the nearest float64, ties to even, as IEEE 754 and Go do.  A `float32` is
  represented by the float64 it converts to.
* A `time.Time` is a reading of the monotonic clock in nanoseconds; one call of a
  method reads the clock at one instant `now`.  A `time.Duration` is a signed
  64-bit count of nanoseconds.
* Methods of `*DmCtx` take the context and return the new context, the returned
  error (`none` is Go's `nil`) and the list of the effects they had on the
  collaborators (MQTT publishes, callback invocations).  Logging is not an effect.
* `GetDeviceProperties` blocks in a `select`.  The call is split there: the part
  up to the `select` (`issueGetDeviceProperties`), and the `select` with the
  deferred clean-up (`awaitGetDeviceProperties`), which runs on the context as the
  other goroutines have left it and receives what the `select` receives, a
  timeout or a shadow.  `GetDeviceProperties` is the call with nothing in between.
* The collaborators that are not part of the package (`json.Marshal`, the MQTT
  client, decoding of message content) are the fields of `Env`.
-/

namespace dmcontext

/-! ## Go maps -/

/-- A Go `map[string]α`. -/
abbrev GoMap (α : Type) := List (String × α)

/-- Map read with the comma-ok form: `v, ok := m[k]`. -/
def GoMap.get {α : Type} : GoMap α → String → Option α
  | [], _ => none
  | (k', v) :: rest, k => if k' = k then some v else GoMap.get rest k

/-- Map write: `m[k] = v`. -/
def GoMap.set {α : Type} : GoMap α → String → α → GoMap α
  | [], k, v => [(k, v)]
  | (k', v') :: rest, k, v =>
    if k' = k then (k, v) :: rest else (k', v') :: GoMap.set rest k v

/-- Map delete: `delete(m, k)`. -/
def GoMap.delete {α : Type} : GoMap α → String → GoMap α
  | [], _ => []
  | (k', v') :: rest, k =>
    if k' = k then GoMap.delete rest k else (k', v') :: GoMap.delete rest k

/-- The keys of a map, in iteration order. -/
def GoMap.keys {α : Type} (m : GoMap α) : List String := m.map Prod.fst

/-! ## The type float64 -/

/-- A `float64` (IEEE 754 binary64): NaN, an infinity with its sign, or a finite
value with its sign and its magnitude in units of `2^-1074`; `fin true 0` is the
negative zero.  A float64 has 53 significant bits, so not every magnitude is that
of a float64: the operations below return magnitudes of float64 values only, and
what is proved for every magnitude holds for those of float64 values. -/
inductive Float64 where
  | nan
  | inf (neg : Bool)
  | fin (neg : Bool) (mag : Nat)
  deriving DecidableEq

/-- The number of units in 1: a unit is `2^-1074`, the smallest positive float64. -/
@[irreducible] def Float64.scale : Nat := 2 ^ 1074

/-- The magnitude `2^53` units, below which the float64 values are one unit apart. -/
@[irreducible] def Float64.mantissaBound : Nat := 2 ^ 53

/-- The magnitude `2^1024`, in units: a rounded value that reaches it overflows. -/
@[irreducible] def Float64.overflowMag : Nat := 2 ^ 2098

/-- The loop of `floorLog2`: halves `n` until it is below 2 and counts the
halvings. -/
def Float64.log2Loop : Nat → Nat → Nat → Nat
  | 0, _, acc => acc
  | fuel + 1, n, acc => if n < 2 then acc else Float64.log2Loop fuel (n / 2) (acc + 1)

/-- The integer part of the binary logarithm of `n` (0 for `n = 0`). -/
def Float64.floorLog2 (n : Nat) : Nat := Float64.log2Loop n n 0

/-- Rounding to the nearest float64, ties to even: the magnitude, in units of
`2^-1074`, of the float64 nearest to `a / b` units, or `none` when the rounded
value is beyond the largest finite float64 (overflow).  Below `2^53` units the
float64 values are one unit apart; from there on a value with integer part `q`
lies between two values `2^j` units apart, `j = floorLog2 q - 52`. -/
def Float64.roundMag (a b : Nat) : Option Nat :=
  let j := if a / b < Float64.mantissaBound then 0 else Float64.floorLog2 (a / b) - 52
  let den := b * 2 ^ j
  let q := a / den
  let r := a % den
  let up := if den < 2 * r ∨ (2 * r = den ∧ q % 2 = 1) then 1 else 0
  let n := (q + up) * 2 ^ j
  if n < Float64.overflowMag then some n else none

/-- The float64 of sign `neg` nearest to the magnitude `a / b` units. -/
def Float64.ofRound (neg : Bool) (a b : Nat) : Float64 :=
  match Float64.roundMag a b with
  | some n => Float64.fin neg n
  | none => Float64.inf neg

/-- Conversion of an integer to float64, `float64(z)`. -/
def Float64.ofInt (z : Int) : Float64 :=
  Float64.ofRound (decide (z < 0)) (z.natAbs * Float64.scale) 1

/-- The float64 nearest to the fraction `num / den` with the sign `neg`: the value
of a decimal literal such as `2.53 = 253 / 100`. -/
def Float64.ofFrac (neg : Bool) (num den : Nat) : Float64 :=
  Float64.ofRound neg (num * Float64.scale) den

/-- The float64 `+0`. -/
def Float64.zero : Float64 := Float64.fin false 0

/-- The constant `100` of the deviation test, as a float64. -/
def Float64.hundred : Float64 := Float64.ofInt 100

/-- Negation `-x`. -/
def Float64.neg : Float64 → Float64
  | Float64.nan => Float64.nan
  | Float64.inf s => Float64.inf (!s)
  | Float64.fin s n => Float64.fin (!s) n

/-- Addition `x + y`: the exact sum, rounded; an exact zero sum of two values of
opposite signs is `+0`. -/
def Float64.add : Float64 → Float64 → Float64
  | Float64.nan, _ => Float64.nan
  | _, Float64.nan => Float64.nan
  | Float64.inf s, Float64.inf t => if s = t then Float64.inf s else Float64.nan
  | Float64.inf s, Float64.fin _ _ => Float64.inf s
  | Float64.fin _ _, Float64.inf t => Float64.inf t
  | Float64.fin s m, Float64.fin t n =>
    if s = t then Float64.ofRound s (m + n) 1
    else if m = n then Float64.fin false 0
    else if n < m then Float64.ofRound s (m - n) 1
    else Float64.ofRound t (n - m) 1

/-- Subtraction `x - y`. -/
def Float64.sub (x y : Float64) : Float64 := Float64.add x (Float64.neg y)

/-- Multiplication `x * y`: the exact product, rounded; the sign is the
exclusive or of the signs, and `0 * inf` is NaN. -/
def Float64.mul : Float64 → Float64 → Float64
  | Float64.nan, _ => Float64.nan
  | _, Float64.nan => Float64.nan
  | Float64.inf s, Float64.inf t => Float64.inf (xor s t)
  | Float64.inf s, Float64.fin t n => if n = 0 then Float64.nan else Float64.inf (xor s t)
  | Float64.fin s m, Float64.inf t => if m = 0 then Float64.nan else Float64.inf (xor s t)
  | Float64.fin s m, Float64.fin t n => Float64.ofRound (xor s t) (m * n) Float64.scale

/-- Division `x / y`: the exact quotient, rounded; `0 / 0` and `inf / inf` are
NaN, and a finite non-zero value divided by zero is an infinity. -/
def Float64.div : Float64 → Float64 → Float64
  | Float64.nan, _ => Float64.nan
  | _, Float64.nan => Float64.nan
  | Float64.inf _, Float64.inf _ => Float64.nan
  | Float64.inf s, Float64.fin t _ => Float64.inf (xor s t)
  | Float64.fin s _, Float64.inf t => Float64.fin (xor s t) 0
  | Float64.fin s m, Float64.fin t n =>
    if n = 0 then (if m = 0 then Float64.nan else Float64.inf (xor s t))
    else Float64.ofRound (xor s t) (m * Float64.scale) n

/-- The signed count of units of a finite value. -/
def Float64.signed (s : Bool) (n : Nat) : Int := if s then -(n : Int) else n

/-- Comparison `x <= y`: false when an operand is NaN; the two zeros are equal. -/
def Float64.le : Float64 → Float64 → Bool
  | Float64.nan, _ => false
  | _, Float64.nan => false
  | Float64.inf s, Float64.inf t => s || !t
  | Float64.inf s, Float64.fin _ _ => s
  | Float64.fin _ _, Float64.inf t => !t
  | Float64.fin s m, Float64.fin t n => decide (Float64.signed s m ≤ Float64.signed t n)

/-- Comparison `x >= y`. -/
def Float64.ge (x y : Float64) : Bool := Float64.le y x

/-- Comparison `x < y`. -/
def Float64.lt (x y : Float64) : Bool := Float64.le x y && !Float64.le y x

/-- Whether a float64 is finite. -/
def Float64.isFinite : Float64 → Bool
  | Float64.fin _ _ => true
  | _ => false

/-- The real number that a finite float64 denotes (0 for NaN and the infinities):
used to state a claim in exact arithmetic. -/
def Float64.toRat : Float64 → ℚ
  | Float64.fin s n => (Float64.signed s n : ℚ) / (Float64.scale : ℚ)
  | _ => 0

/-- Whether a float64 is below zero: a negative infinity or a negative finite
value that is not the negative zero. -/
def Float64.isNegative : Float64 → Bool
  | Float64.inf s => s
  | Float64.fin s n => s && decide (0 < n)
  | Float64.nan => false

/-- Whether a float64 is NaN or not below zero. -/
def Float64.isNaNOrNonneg : Float64 → Bool
  | Float64.nan => true
  | Float64.inf s => !s
  | Float64.fin s n => !s || decide (n = 0)

/-! ## Values, errors, time -/

/-- A Go `interface{}` value: the dynamic types the package inspects, and `other`
for every other dynamic type (a channel, a function, a struct, ...). -/
inductive Value where
  | nil
  | int (n : Int)
  | int16 (n : Int)
  | int32 (n : Int)
  | int64 (n : Int)
  | float32 (x : Float64)
  | float64 (x : Float64)
  | bool (b : Bool)
  | string (s : String)
  | other (tag : String)
  deriving DecidableEq

/-- The errors of the package (the `Err...` variables) and errors made from a text
(`errors.New`, `errors.Errorf`, and the errors of the collaborators). -/
inductive Error where
  | ErrInvalidMessage
  | ErrInvalidChannel
  | ErrInvalidDelta
  | ErrInvalidPropertyKey
  | ErrResponseChannelNotExist
  | ErrAccessConfigNotExist
  | ErrDeviceModelNotExist
  | ErrAccessTemplateNotExist
  | ErrPropsConfigNotExist
  | ErrDeviceNotExist
  | ErrTypeNotSupported
  | text (msg : String)
  deriving DecidableEq

deriving instance DecidableEq for Except

/-- Metadata key `KeyDevice`. -/
def KeyDevice : String := "device"
/-- Metadata key `KeyDeviceProduct`. -/
def KeyDeviceProduct : String := "deviceProduct"
/-- Metadata key `KeyAccessTemplate`. -/
def KeyAccessTemplate : String := "accessTemplate"
/-- Metadata key `KeyNode`. -/
def KeyNode : String := "node"
/-- Metadata key `KeyNodeProduct`. -/
def KeyNodeProduct : String := "nodeProduct"
/-- Constant `NodeProduct`. -/
def NodeProduct : String := "BIE-Product"
/-- Message kind `v1.MessageDeviceReport`. -/
def MessageDeviceReport : String := "deviceReport"
/-- Message kind `v1.MessageDeviceDelta`. -/
def MessageDeviceDelta : String := "deviceDelta"
/-- Message kind `v1.MessageDeviceEvent`. -/
def MessageDeviceEvent : String := "deviceEvent"
/-- Message kind `v1.MessageResponse`. -/
def MessageResponse : String := "response"

/-- Largest `time.Duration`. -/
def maxDuration : Int := 2 ^ 63 - 1
/-- Smallest `time.Duration`. -/
def minDuration : Int := -(2 ^ 63)
/-- The duration `time.Second`, in nanoseconds. -/
def Second : Int := 1000000000

/-- Two's complement wrap of an integer to 64 bits (Go's `int64` arithmetic). -/
def wrapInt64 (x : Int) : Int := (x + 2 ^ 63) % 2 ^ 64 - 2 ^ 63

/-- The method `t.Sub(u)` of `time.Time` on two monotonic readings: the
difference, saturated to the range of `time.Duration`. -/
def Time.Sub (t u : Int) : Int :=
  if t - u > maxDuration then maxDuration
  else if t - u < minDuration then minDuration
  else t - u

/-! ## Data model -/

/-- Modelled from the spec: `mqtt2.QOSTopic` is declared outside the sources read
here; a topic binding is a topic with a quality-of-service level. -/
structure QOSTopic where
  QOS : Nat
  Topic : String
  deriving DecidableEq

/-- Modelled from the spec: the topic bindings of a device, declared outside the
sources read here; one binding per purpose (report, event-report, get,
get-response, delta, event, property-get, lifecycle-report). -/
structure DeviceTopic where
  Delta : QOSTopic
  Report : QOSTopic
  Event : QOSTopic
  Get : QOSTopic
  GetResponse : QOSTopic
  EventReport : QOSTopic
  PropertyGet : QOSTopic
  LifecycleReport : QOSTopic
  deriving DecidableEq

/-- Modelled from the spec: `DeviceInfo` is declared outside the sources read here;
a device is its identity (name), model identifier, access-template identifier and
topic bindings, the fields that `context.go` reads. -/
structure DeviceInfo where
  Name : String
  DeviceModel : String
  AccessTemplate : String
  DeviceTopic : DeviceTopic
  deriving DecidableEq

/-- Modelled from the spec: `ModelMapping` is declared outside the sources read
here; an entry of an access template is an attribute name, a silent-window
duration (an `int` of seconds) and a deviation percent (a `float64`). -/
structure ModelMapping where
  Attribute : String
  SilentWin : Int
  Deviation : Float64
  deriving DecidableEq

/-- Modelled from the spec: `AccessTemplate` is declared outside the sources read
here; a named set of `ModelMapping` entries. -/
structure AccessTemplate where
  Name : String
  Mappings : List ModelMapping
  deriving DecidableEq

/-- Modelled from the spec: `ReportProperty` is declared outside the sources read
here; the filter state of a property key, timestamp and last value. -/
structure ReportProperty where
  Time : Int
  Value : Value
  deriving DecidableEq

/-- A property report `v1.Report`, a `map[string]interface{}`. -/
abbrev Report := GoMap Value

/-- A property delta `v1.Delta`, a `map[string]interface{}`. -/
abbrev Delta := GoMap Value

/-- Modelled from the spec: `Event` is declared outside the sources read here; an
event delivered to the event callback, a type tag (the Go field `Type`) and a
payload. -/
structure Event where
  EventType : String
  Payload : Value
  deriving DecidableEq

/-- The dynamic value of the `Properties` field of a blink envelope: a property
map, a list, or anything else. -/
inductive Properties where
  | object (m : GoMap Value)
  | array (xs : List Value)
  | scalar (v : Value)
  deriving DecidableEq

/-- Modelled from the spec: `BlinkData` is declared outside the sources read here;
of the envelope `context.go` reads the field `Properties` only. -/
structure BlinkData where
  Properties : Properties
  deriving DecidableEq

/-- Modelled from the spec: `BlinkContent` is declared outside the sources read
here; the content of a device message, a blink envelope. -/
structure BlinkContent where
  Blink : BlinkData
  deriving DecidableEq

/-- Modelled from the spec: `v1.LazyValue` is declared outside the sources read
here; a lazily-decoded content payload, either the raw document received from the
bus, still to be decoded, or a value to be encoded. -/
inductive LazyValue where
  | doc (raw : String)
  | value (v : BlinkContent)
  deriving DecidableEq

/-- The message envelope `v1.Message`. -/
structure Message where
  Kind : String
  Metadata : GoMap String
  Content : LazyValue
  deriving DecidableEq

/-- Modelled from the spec: `DeviceShadow` is declared outside the sources read
here; a pair of property maps, `report` and `desire`. -/
structure DeviceShadow where
  Report : GoMap Value
  Desire : GoMap Value
  deriving DecidableEq

/-- One call of `c.mqtt.Publish(qos, topic, payload, 0, false, false)`. -/
structure Publish where
  qos : Nat
  topic : String
  payload : String
  deriving DecidableEq

/-- The types of the three callbacks; a callback returns its error. -/
abbrev DeltaCallback := DeviceInfo → Delta → Option Error
/-- Type `EventCallback`. -/
abbrev EventCallback := DeviceInfo → Event → Option Error
/-- Type `PropertyGetCallback`. -/
abbrev PropertyGetCallback := DeviceInfo → List String → Option Error

/-- An effect of a method on a collaborator: a publish, the invocation of a
callback, or a shadow handed over on the channel `ch` of a waiting
`GetDeviceProperties`. -/
inductive Effect where
  | publish (p : Publish)
  | deltaCb (dev : DeviceInfo) (delta : Delta)
  | eventCb (dev : DeviceInfo) (event : Event)
  | propertyGetCb (dev : DeviceInfo) (keys : List String)
  | send (ch : Nat) (shadow : DeviceShadow)
  deriving DecidableEq

/-- The collaborators of the package. -/
structure Env where
  /-- The method `NodeName()` of the embedded `context.Context`. -/
  NodeName : String
  /-- The function `json.Marshal` on an outbound message. -/
  jsonMarshal : Message → Except Error String
  /-- The error returned by `c.mqtt.Publish` for a call. -/
  mqttPublish : Publish → Option Error
  /-- The method `ExactUnmarshal` of the content, into a `BlinkContent`. -/
  ExactUnmarshal : LazyValue → Except Error BlinkContent
  /-- The method `parsePropertyValues` of the context (not in `context.go`). -/
  parsePropertyValues : DeviceInfo → GoMap Value → Except Error (GoMap Value)
  /-- The method `Unmarshal` of the content, into an `Event`. -/
  Unmarshal : LazyValue → Except Error Event
  /-- The method `ExactUnmarshal` of the content, into a `*DeviceShadow`. -/
  ExactUnmarshalShadow : LazyValue → Except Error DeviceShadow
  /-- The function `json.Marshal` on a `DeviceInfo`. -/
  jsonMarshalInfo : DeviceInfo → Except Error String

/-- A value of the response table (a `sync.Map`): a channel of shadows, named by a
number, or a value of another dynamic type. -/
inductive ResponseValue where
  | chan (id : Nat)
  | other (tag : String)
  deriving DecidableEq

/-- The context `DmCtx`: the fields that hold state (a `nil` callback is `none`). -/
structure DmCtx where
  eventCb : Option EventCallback
  deltaCb : Option DeltaCallback
  propertyGetCb : Option PropertyGetCallback
  response : GoMap ResponseValue
  devices : GoMap DeviceInfo
  accessTemplates : GoMap AccessTemplate
  lastReportProperties : GoMap ReportProperty

/-- The result of a method: the context after the call, the returned error and
the effects of the call, in order. -/
structure Outcome where
  ctx : DmCtx
  err : Option Error
  effects : List Effect

/-! ## The report filter -/

/-- Function `isCalculable`: a type switch on the dynamic type. -/
def isCalculable (v : Value) : Bool :=
  match v with
  | Value.int _ => true
  | Value.int16 _ => true
  | Value.int32 _ => true
  | Value.int64 _ => true
  | Value.float32 _ => true
  | Value.float64 _ => true
  | _ => false

/-- Modelled from the spec: `parseValueToFloat64` is not in `context.go`.  The
spec reads the reported and the last accepted value as numbers when the value is
numeric (`delta = newValue − lastAcceptedValue`): a value of one of the six
numeric types is converted to float64 (an integer is rounded to the nearest
float64, a float32 converts exactly), any other value is an error. -/
def parseValueToFloat64 (v : Value) : Except Error Float64 :=
  match v with
  | Value.int n => Except.ok (Float64.ofInt n)
  | Value.int16 n => Except.ok (Float64.ofInt n)
  | Value.int32 n => Except.ok (Float64.ofInt n)
  | Value.int64 n => Except.ok (Float64.ofInt n)
  | Value.float32 x => Except.ok x
  | Value.float64 x => Except.ok x
  | _ => Except.error Error.ErrTypeNotSupported

/-- The test `parseVal-lastVal >= lastVal*mapping.Deviation/100` of the filter, in
float64: the difference, the product and the quotient are each rounded (the
expression has no multiplication followed by an addition, so no operation can be
fused). -/
def deviationTest (parseVal lastVal deviation : Float64) : Bool :=
  Float64.ge (Float64.sub parseVal lastVal)
    (Float64.div (Float64.mul lastVal deviation) Float64.hundred)

/-- The real number that a numeric value denotes (0 for any other value): used to
state a claim in exact arithmetic. -/
def exactValue (v : Value) : ℚ :=
  match v with
  | Value.int n => n
  | Value.int16 n => n
  | Value.int32 n => n
  | Value.int64 n => n
  | Value.float32 x => Float64.toRat x
  | Value.float64 x => Float64.toRat x
  | _ => 0

/-- The duration `time.Duration(mapping.SilentWin) * time.Second`, an `int64`
product. -/
def silentWindow (mapping : ModelMapping) : Int :=
  wrapInt64 (wrapInt64 mapping.SilentWin * Second)

/-- The loop that builds `propMapping`, key = attribute, value = mapping. -/
def genPropMapping (mappings : List ModelMapping) : GoMap ModelMapping :=
  mappings.foldl (fun propMapping mapping => GoMap.set propMapping mapping.Attribute mapping) []

/-- The two maps the filter loop writes: the filtered report and the filter
state `c.lastReportProperties`. -/
structure FilterState where
  filterReport : GoMap Value
  lastReportProperties : GoMap ReportProperty
  deriving DecidableEq

/-- The two assignments of an accepted value. -/
def accept (now : Int) (st : FilterState) (key : String) (value : Value) : FilterState :=
  { filterReport := GoMap.set st.filterReport key value
    lastReportProperties := GoMap.set st.lastReportProperties key ⟨now, value⟩ }

/-- The condition "first report or out of silentWin":
`!ok || time.Now().Sub(last.Time) > time.Duration(mapping.SilentWin)*time.Second`. -/
def firstOrOutOfSilentWin (now : Int) (last : GoMap ReportProperty) (key : String)
    (mapping : ModelMapping) : Bool :=
  match GoMap.get last key with
  | none => true
  | some p => decide (Time.Sub now p.Time > silentWindow mapping)

/-- The value `c.lastReportProperties[key].Value`: the zero value (`nil`) when the
key is absent. -/
def lastValue (last : GoMap ReportProperty) (key : String) : Value :=
  match GoMap.get last key with
  | none => Value.nil
  | some p => p.Value

/-- The body of the loop `for key, value := range report`. -/
def filterStep (now : Int) (propMapping : GoMap ModelMapping) (st : FilterState)
    (kv : String × Value) : FilterState :=
  match GoMap.get propMapping kv.1 with
  | none => st
  | some mapping =>
    -- first report or out of silentWin
    let st1 :=
      if firstOrOutOfSilentWin now st.lastReportProperties kv.1 mapping then
        accept now st kv.1 kv.2
      else st
    -- greater than deviation
    if isCalculable kv.2 then
      match parseValueToFloat64 kv.2 with
      | Except.error _ => st1
      | Except.ok parseVal =>
        match parseValueToFloat64 (lastValue st1.lastReportProperties kv.1) with
        | Except.error _ => st1
        | Except.ok lastVal =>
          if deviationTest parseVal lastVal mapping.Deviation then
            accept now st1 kv.1 kv.2
          else st1
    else st1

/-- The filter loop of `ReportDevicePropertiesWithFilter` over the whole report,
from the state `st`. -/
def filterLoop (now : Int) (propMapping : GoMap ModelMapping) (st : FilterState)
    (report : Report) : FilterState :=
  report.foldl (filterStep now propMapping) st

/-- Method `GetAccessTemplates`. -/
def GetAccessTemplates (c : DmCtx) (device : DeviceInfo) : Except Error AccessTemplate :=
  match GoMap.get c.accessTemplates device.AccessTemplate with
  | some accessTemplate => Except.ok accessTemplate
  | none => Except.error Error.ErrAccessTemplateNotExist

/-- Method `genMetadata`. -/
def genMetadata (env : Env) (info : DeviceInfo) : GoMap String :=
  [ (KeyDevice, info.Name),
    (KeyDeviceProduct, info.DeviceModel),
    (KeyAccessTemplate, info.AccessTemplate),
    (KeyNode, env.NodeName),
    (KeyNodeProduct, NodeProduct) ]

/-- Modelled from the spec: `GenPropertyReportBlinkData` is not in the sources read
here; the envelope of an outbound property report carries the report as its
properties. -/
def GenPropertyReportBlinkData (report : Report) : BlinkData :=
  { Properties := Properties.object report }

/-- The message `msg` that `ReportDeviceProperties` builds for a report. -/
def reportMessage (env : Env) (info : DeviceInfo) (report : Report) : Message :=
  { Kind := MessageDeviceReport
    Metadata := genMetadata env info
    Content := LazyValue.value { Blink := GenPropertyReportBlinkData report } }

/-- Method `ReportDeviceProperties`: builds the report message, marshals it and
publishes it on the report topic of the device with its quality of service. -/
def ReportDeviceProperties (env : Env) (c : DmCtx) (info : DeviceInfo) (report : Report) :
    Outcome :=
  match env.jsonMarshal (reportMessage env info report) with
  | Except.error err => { ctx := c, err := some err, effects := [] }
  | Except.ok pld =>
    let p : Publish :=
      { qos := info.DeviceTopic.Report.QOS, topic := info.DeviceTopic.Report.Topic, payload := pld }
    { ctx := c, err := env.mqttPublish p, effects := [Effect.publish p] }

/-- The filtered report and the filter state that `ReportDevicePropertiesWithFilter`
computes for a device whose access template is `accessTemplates`. -/
def filterReport (now : Int) (accessTemplates : AccessTemplate)
    (last : GoMap ReportProperty) (report : Report) : FilterState :=
  filterLoop now (genPropMapping accessTemplates.Mappings)
    { filterReport := [], lastReportProperties := last } report

/-- Method `ReportDevicePropertiesWithFilter`, called at time `now`. -/
def ReportDevicePropertiesWithFilter (env : Env) (now : Int) (c : DmCtx)
    (device : DeviceInfo) (report : Report) : Outcome :=
  match GetAccessTemplates c device with
  | Except.error err => { ctx := c, err := some err, effects := [] }
  | Except.ok accessTemplates =>
    let st := filterReport now accessTemplates c.lastReportProperties report
    ReportDeviceProperties env { c with lastReportProperties := st.lastReportProperties }
      device st.filterReport

/-! ## The callback registry -/

/-- Method `RegisterDeltaCallback`; the argument `none` is a `nil` callback. -/
def RegisterDeltaCallback (c : DmCtx) (cb : Option DeltaCallback) : Outcome :=
  match c.deltaCb with
  | some _ =>
    { ctx := c, err := some (Error.text "delta callback already registered"), effects := [] }
  | none => { ctx := { c with deltaCb := cb }, err := none, effects := [] }

/-- Method `RegisterEventCallback`; the argument `none` is a `nil` callback. -/
def RegisterEventCallback (c : DmCtx) (cb : Option EventCallback) : Outcome :=
  match c.eventCb with
  | some _ =>
    { ctx := c, err := some (Error.text "event callback already registered"), effects := [] }
  | none => { ctx := { c with eventCb := cb }, err := none, effects := [] }

/-- Method `RegisterPropertyGetCallback`; the argument `none` is a `nil` callback. -/
def RegisterPropertyGetCallback (c : DmCtx) (cb : Option PropertyGetCallback) : Outcome :=
  match c.propertyGetCb with
  | some _ =>
    { ctx := c, err := some (Error.text "property get callback already registered"),
      effects := [] }
  | none => { ctx := { c with propertyGetCb := cb }, err := none, effects := [] }

/-! ## Processing of inbound messages -/

/-- Map read without the comma-ok form on a `map[string]string`: the empty string
when the key is absent. -/
def metadataOf (msg : Message) (key : String) : String :=
  match GoMap.get msg.Metadata key with
  | some v => v
  | none => ""

/-- Method `processDelta`. -/
def processDelta (env : Env) (c : DmCtx) (msg : Message) : Outcome :=
  let deviceName := metadataOf msg KeyDevice
  match c.deltaCb with
  | none => { ctx := c, err := none, effects := [] }
  | some deltaCb =>
    match env.ExactUnmarshal msg.Content with
    | Except.error err => { ctx := c, err := some err, effects := [] }
    | Except.ok blinkContent =>
      match blinkContent.Blink.Properties with
      | Properties.object delta =>
        match GoMap.get c.devices deviceName with
        | none => { ctx := c, err := some Error.ErrDeviceNotExist, effects := [] }
        | some dev =>
          match env.parsePropertyValues dev delta with
          | Except.error err => { ctx := c, err := some err, effects := [] }
          | Except.ok delta =>
            { ctx := c, err := deltaCb dev delta, effects := [Effect.deltaCb dev delta] }
      | _ => { ctx := c, err := some Error.ErrInvalidDelta, effects := [] }

/-- Method `processEvent`. -/
def processEvent (env : Env) (c : DmCtx) (msg : Message) : Outcome :=
  let deviceName := metadataOf msg KeyDevice
  match c.eventCb with
  | none => { ctx := c, err := none, effects := [] }
  | some eventCb =>
    match env.Unmarshal msg.Content with
    | Except.error err => { ctx := c, err := some err, effects := [] }
    | Except.ok event =>
      match GoMap.get c.devices deviceName with
      | none => { ctx := c, err := none, effects := [] }
      | some dev =>
        { ctx := c, err := eventCb dev event, effects := [Effect.eventCb dev event] }

/-- The zero value of `DeviceInfo`, the result of `c.devices[deviceName]` for an
absent name. -/
def zeroDeviceInfo : DeviceInfo :=
  { Name := "", DeviceModel := "", AccessTemplate := "",
    DeviceTopic := ⟨⟨0, ""⟩, ⟨0, ""⟩, ⟨0, ""⟩, ⟨0, ""⟩, ⟨0, ""⟩, ⟨0, ""⟩, ⟨0, ""⟩, ⟨0, ""⟩⟩ }

/-- Method `processResponse`.  The send on the channel does not block: the shadow
is handed over when a receiver is blocked on the channel (`ready`), and dropped
otherwise.  (The second test of `ok`, after the decoding, cannot fail.) -/
def processResponse (env : Env) (c : DmCtx) (msg : Message) (ready : Bool) : Outcome :=
  let deviceName := metadataOf msg KeyDevice
  match GoMap.get c.response deviceName with
  | none => { ctx := c, err := some Error.ErrResponseChannelNotExist, effects := [] }
  | some (ResponseValue.other _) =>
    { ctx := c, err := some Error.ErrInvalidChannel, effects := [] }
  | some (ResponseValue.chan ch) =>
    match env.ExactUnmarshalShadow msg.Content with
    | Except.error err => { ctx := c, err := some err, effects := [] }
    | Except.ok shad =>
      let dev :=
        match GoMap.get c.devices deviceName with
        | some dev => dev
        | none => zeroDeviceInfo
      match env.parsePropertyValues dev shad.Report with
      | Except.error err => { ctx := c, err := some err, effects := [] }
      | Except.ok report =>
        match env.parsePropertyValues dev shad.Desire with
        | Except.error err => { ctx := c, err := some err, effects := [] }
        | Except.ok desire =>
          if ready then
            { ctx := c, err := none,
              effects := [Effect.send ch { Report := report, Desire := desire }] }
          else { ctx := c, err := none, effects := [] }

/-! ## The get-properties exchange -/

/-- The result of `GetDeviceProperties`: the context after the call, the returned
shadow, the returned error and the effects of the call. -/
structure GetOutcome where
  ctx : DmCtx
  props : Option DeviceShadow
  err : Option Error
  effects : List Effect

/-- What the `select` of `GetDeviceProperties` receives: the timer fired, or a
shadow arrived on the channel. -/
inductive WaitEvent where
  | timeout
  | props (shadow : DeviceShadow)
  deriving DecidableEq

/-- Where a call of `GetDeviceProperties` stands at its `select`: it has returned,
or it waits in the context `ctx` after the effects `effects`. -/
inductive Issued where
  | returned (out : GetOutcome)
  | waiting (ctx : DmCtx) (effects : List Effect)

/-- The method `LoadOrStore` of `sync.Map`: the table after the call and whether
the key was already there. -/
def LoadOrStore (m : GoMap ResponseValue) (key : String) (value : ResponseValue) :
    GoMap ResponseValue × Bool :=
  match GoMap.get m key with
  | some _ => (m, true)
  | none => (GoMap.set m key value, false)

/-- Method `GetDeviceProperties` up to its `select`; `ch` names the channel that
the call makes. -/
def issueGetDeviceProperties (env : Env) (c : DmCtx) (info : DeviceInfo) (ch : Nat) :
    Issued :=
  match env.jsonMarshalInfo info with
  | Except.error err =>
    Issued.returned { ctx := c, props := none, err := some err, effects := [] }
  | Except.ok pld =>
    let p : Publish :=
      { qos := info.DeviceTopic.Get.QOS, topic := info.DeviceTopic.Get.Topic, payload := pld }
    match env.mqttPublish p with
    | some err =>
      Issued.returned
        { ctx := c, props := none, err := some err, effects := [Effect.publish p] }
    | none =>
      match LoadOrStore c.response info.Name (ResponseValue.chan ch) with
      | (_, true) =>
        -- another routine may not finish getting device properties
        Issued.returned
          { ctx := c, props := none,
            err := some (Error.text "waiting for getting properties"),
            effects := [Effect.publish p] }
      | (response, false) =>
        Issued.waiting { c with response := response } [Effect.publish p]

/-- Method `GetDeviceProperties` from its `select` on, in the context `c` that
the call finds there: the `select` receives `ev`, and the deferred function
deletes the entry of the device. -/
def awaitGetDeviceProperties (c : DmCtx) (info : DeviceInfo) (effects : List Effect)
    (ev : WaitEvent) : GetOutcome :=
  match ev with
  | WaitEvent.timeout =>
    { ctx := { c with response := GoMap.delete c.response info.Name }
      props := none
      err := some (Error.text ("get device: " ++ info.Name ++ " properties timeout"))
      effects := effects }
  | WaitEvent.props props =>
    { ctx := { c with response := GoMap.delete c.response info.Name }
      props := some props
      err := none
      effects := effects }

/-- Method `GetDeviceProperties`, with nothing between its two parts. -/
def GetDeviceProperties (env : Env) (c : DmCtx) (info : DeviceInfo) (ch : Nat)
    (ev : WaitEvent) : GetOutcome :=
  match issueGetDeviceProperties env c info ch with
  | Issued.returned out => out
  | Issued.waiting ctx effects => awaitGetDeviceProperties ctx info effects ev

/-! ## A concrete gateway

Two devices that share the access template `tpl`, whose only mapping is the
property `x` with a silent window of 60 seconds and a deviation of 10 percent. -/

/-- The topic bindings of the example device `name`. -/
def exampleTopics (name : String) : DeviceTopic :=
  { Delta := ⟨1, name ++ "/delta"⟩
    Report := ⟨1, name ++ "/report"⟩
    Event := ⟨1, name ++ "/event"⟩
    Get := ⟨1, name ++ "/get"⟩
    GetResponse := ⟨1, name ++ "/getResponse"⟩
    EventReport := ⟨1, name ++ "/eventReport"⟩
    PropertyGet := ⟨1, name ++ "/propertyGet"⟩
    LifecycleReport := ⟨1, name ++ "/lifecycleReport"⟩ }

/-- Example device `a`. -/
def deviceA : DeviceInfo :=
  { Name := "a", DeviceModel := "model", AccessTemplate := "tpl", DeviceTopic := exampleTopics "a" }

/-- Example device `b`, with the access template of `a`. -/
def deviceB : DeviceInfo :=
  { Name := "b", DeviceModel := "model", AccessTemplate := "tpl", DeviceTopic := exampleTopics "b" }

/-- Example device whose access template is not in the catalog. -/
def deviceNoTemplate : DeviceInfo :=
  { Name := "c", DeviceModel := "model", AccessTemplate := "none", DeviceTopic := exampleTopics "c" }

/-- The mapping of `x`: silent window 60 s, deviation 10 %. -/
def mappingX : ModelMapping :=
  { Attribute := "x", SilentWin := 60, Deviation := Float64.ofInt 10 }

/-- The example access template. -/
def exampleTemplate : AccessTemplate := { Name := "tpl", Mappings := [mappingX] }

/-- The example context as `NewContext` leaves it: no callback, no pending
response, no filter state. -/
def exampleCtx : DmCtx :=
  { eventCb := none
    deltaCb := none
    propertyGetCb := none
    response := []
    devices := [("a", deviceA), ("b", deviceB)]
    accessTemplates := [("tpl", exampleTemplate)]
    lastReportProperties := [] }

/-- Whether a report holds a value that JSON cannot encode: a value of an
unsupported dynamic type, a NaN or an infinity. -/
def hasUnsupported (report : Report) : Bool :=
  report.any (fun p => match p.2 with
    | Value.other _ => true
    | Value.float64 (Float64.fin _ _) => false
    | Value.float64 _ => true
    | Value.float32 (Float64.fin _ _) => false
    | Value.float32 _ => true
    | _ => false)

/-- An example `json.Marshal`: it fails on a report that holds a value of an
unsupported dynamic type, a NaN or an infinity, and otherwise renders the keys of
the report. -/
def exampleMarshal (msg : Message) : Except Error String :=
  match msg.Content with
  | LazyValue.value ⟨⟨Properties.object report⟩⟩ =>
    if hasUnsupported report then Except.error (Error.text "json: unsupported type")
    else Except.ok (String.intercalate "," (GoMap.keys report))
  | _ => Except.ok ""

/-- An example decoder of delta content: the document `x=1` is the property map
`(x: 1)`, the document `[]` is a list, any other document does not decode. -/
def exampleExactUnmarshal (content : LazyValue) : Except Error BlinkContent :=
  match content with
  | LazyValue.value v => Except.ok v
  | LazyValue.doc raw =>
    if raw = "x=1" then Except.ok ⟨⟨Properties.object [("x", Value.int 1)]⟩⟩
    else if raw = "[]" then Except.ok ⟨⟨Properties.array []⟩⟩
    else Except.error (Error.text "invalid character")

/-- An example decoder of event content: the document `report` is an event, any
other document does not decode. -/
def exampleUnmarshalEvent (content : LazyValue) : Except Error Event :=
  match content with
  | LazyValue.doc raw =>
    if raw = "report" then Except.ok { EventType := "report", Payload := Value.nil }
    else Except.error (Error.text "invalid character")
  | LazyValue.value _ => Except.error (Error.text "invalid character")

/-- Example collaborators: the broker accepts every publish. -/
def exampleEnv : Env :=
  { NodeName := "node"
    jsonMarshal := exampleMarshal
    mqttPublish := fun _ => none
    ExactUnmarshal := exampleExactUnmarshal
    parsePropertyValues := fun _ props => Except.ok props
    Unmarshal := exampleUnmarshalEvent
    ExactUnmarshalShadow := fun _ => Except.ok { Report := [], Desire := [] }
    jsonMarshalInfo := fun info => Except.ok info.Name }

/-- Example collaborators whose broker refuses every publish. -/
def failingBrokerEnv : Env :=
  { exampleEnv with mqttPublish := fun _ => some (Error.text "mqtt: not connected") }

/-- An example delta callback. -/
def exampleDeltaCb : DeltaCallback := fun _ _ => none

/-- An example event callback. -/
def exampleEventCb : EventCallback := fun _ _ => none

/-- An example property-get callback. -/
def examplePropertyGetCb : PropertyGetCallback := fun _ _ => none

/-- The example context with a delta and an event callback registered. -/
def ctxWithCallbacks : DmCtx :=
  { exampleCtx with deltaCb := some exampleDeltaCb, eventCb := some exampleEventCb }

/-- The example context while a `GetDeviceProperties` call for device `a` waits on
its channel 0 (see `ctxPending_reached`). -/
def ctxPending : DmCtx :=
  { exampleCtx with response := [("a", ResponseValue.chan 0)] }

/-- An inbound message of kind `kind` for the device `z`, which is not in the
registry, with the raw content `raw`. -/
def messageForZ (kind raw : String) : Message :=
  { Kind := kind, Metadata := [(KeyDevice, "z")], Content := LazyValue.doc raw }

/-- An inbound message of kind `kind` for the device `a`, with the raw content
`raw`. -/
def messageForA (kind raw : String) : Message :=
  { Kind := kind, Metadata := [(KeyDevice, "a")], Content := LazyValue.doc raw }

/-- The example context after device `a` reported `(x: 100)` at time 0
(see `ctxAfterFirstReport_reached`). -/
def ctxAfterFirstReport : DmCtx :=
  { exampleCtx with lastReportProperties := [("x", ⟨0, Value.int 100⟩)] }

/-- The example context after device `a` reported `(x: -100)` at time 0
(see `ctxAfterNegativeReport_reached`). -/
def ctxAfterNegativeReport : DmCtx :=
  { exampleCtx with lastReportProperties := [("x", ⟨0, Value.int (-100)⟩)] }

/-- The mapping of `x` with a deviation of 20 %. -/
def mappingX20 : ModelMapping :=
  { Attribute := "x", SilentWin := 60, Deviation := Float64.ofInt 20 }

/-- The mapping of `x` with a deviation of 0 %. -/
def mappingX0 : ModelMapping :=
  { Attribute := "x", SilentWin := 60, Deviation := Float64.ofInt 0 }

/-- The access template `tpl` with a deviation of 20 %. -/
def template20 : AccessTemplate := { Name := "tpl", Mappings := [mappingX20] }

/-- The access template `tpl` with a deviation of 0 %. -/
def template0 : AccessTemplate := { Name := "tpl", Mappings := [mappingX0] }

/-- The example context with `tpl` as its access template and no filter state. -/
def ctxFresh (tpl : AccessTemplate) : DmCtx :=
  { exampleCtx with accessTemplates := [("tpl", tpl)] }

/-- The context `ctxFresh tpl` after a device reported `(x: v)` at time 0 (see
`ctxStored_reached`). -/
def ctxStored (tpl : AccessTemplate) (v : Value) : DmCtx :=
  { exampleCtx with
    accessTemplates := [("tpl", tpl)]
    lastReportProperties := [("x", ⟨0, v⟩)] }

/-- The float64 `2.3`. -/
def float2_3 : Float64 := Float64.ofFrac false 23 10

/-- The float64 `2.53`. -/
def float2_53 : Float64 := Float64.ofFrac false 253 100

/-- The float64 `3.13`. -/
def float3_13 : Float64 := Float64.ofFrac false 313 100

/-- The float64 `3.756`. -/
def float3_756 : Float64 := Float64.ofFrac false 3756 1000

/-! ## Maps: read after write -/

theorem goMap_get_set_self {α : Type} (m : GoMap α) (k : String) (v : α) :
    GoMap.get (GoMap.set m k v) k = some v := by
  induction m with
  | nil => simp [GoMap.set, GoMap.get]
  | cons hd tl ih =>
    obtain ⟨k', v'⟩ := hd
    by_cases h : k' = k
    · simp [GoMap.set, GoMap.get, h]
    · simp [GoMap.set, GoMap.get, h, ih]

theorem goMap_get_set_of_ne {α : Type} (m : GoMap α) (k k' : String) (v : α) (h : k' ≠ k) :
    GoMap.get (GoMap.set m k v) k' = GoMap.get m k' := by
  induction m with
  | nil => simp [GoMap.set, GoMap.get, Ne.symm h]
  | cons hd tl ih =>
    obtain ⟨k₁, v₁⟩ := hd
    by_cases h₁ : k₁ = k
    · subst h₁
      simp [GoMap.set, GoMap.get, Ne.symm h]
    · by_cases h₂ : k₁ = k'
      · subst h₂
        simp [GoMap.set, GoMap.get, h]
      · simp [GoMap.set, GoMap.get, h₁, h₂, ih]

theorem goMap_set_set_self {α : Type} (m : GoMap α) (k : String) (v w : α) :
    GoMap.set (GoMap.set m k v) k w = GoMap.set m k w := by
  induction m with
  | nil => simp [GoMap.set]
  | cons hd tl ih =>
    obtain ⟨k₁, v₁⟩ := hd
    by_cases h₁ : k₁ = k
    · simp [GoMap.set, h₁]
    · simp [GoMap.set, h₁, ih]

theorem goMap_mem_set {α : Type} (m : GoMap α) (k : String) (v : α) (p : String × α)
    (hp : p ∈ GoMap.set m k v) : p = (k, v) ∨ p ∈ m := by
  induction m with
  | nil => simpa [GoMap.set] using hp
  | cons hd tl ih =>
    obtain ⟨k₁, v₁⟩ := hd
    by_cases h₁ : k₁ = k
    · simp [GoMap.set, h₁] at hp
      rcases hp with hp | hp
      · exact Or.inl hp
      · exact Or.inr (List.mem_cons_of_mem _ hp)
    · simp [GoMap.set, h₁] at hp
      rcases hp with hp | hp
      · exact Or.inr (by simp [hp])
      · rcases ih hp with h | h
        · exact Or.inl h
        · exact Or.inr (List.mem_cons_of_mem _ h)

theorem goMap_mem_of_get {α : Type} (m : GoMap α) (k : String) (v : α)
    (h : GoMap.get m k = some v) : (k, v) ∈ m := by
  induction m with
  | nil => simp [GoMap.get] at h
  | cons hd tl ih =>
    obtain ⟨k₁, v₁⟩ := hd
    by_cases h₁ : k₁ = k
    · simp [GoMap.get, h₁] at h
      simp [h₁, h]
    · simp [GoMap.get, h₁] at h
      exact List.mem_cons_of_mem _ (ih h)

theorem goMap_get_isSome_of_mem {α : Type} (m : GoMap α) (k : String) (v : α)
    (h : (k, v) ∈ m) : ∃ w, GoMap.get m k = some w := by
  induction m with
  | nil => simp at h
  | cons hd tl ih =>
    obtain ⟨k₁, v₁⟩ := hd
    by_cases h₁ : k₁ = k
    · exact ⟨v₁, by simp [GoMap.get, h₁]⟩
    · have : (k, v) ∈ tl := by
        rcases List.mem_cons.mp h with h | h
        · exact absurd (congrArg Prod.fst h).symm h₁
        · exact h
      obtain ⟨w, hw⟩ := ih this
      exact ⟨w, by simp [GoMap.get, h₁, hw]⟩

theorem goMap_get_of_mem_nodup {α : Type} (m : GoMap α) (k : String) (v : α)
    (hnd : (GoMap.keys m).Nodup) (h : (k, v) ∈ m) : GoMap.get m k = some v := by
  induction m with
  | nil => simp at h
  | cons hd tl ih =>
    obtain ⟨k₁, v₁⟩ := hd
    simp only [GoMap.keys, List.map_cons, List.nodup_cons] at hnd
    rcases List.mem_cons.mp h with h | h
    · cases h
      simp [GoMap.get]
    · have hne : k₁ ≠ k := by
        intro he
        subst he
        exact hnd.1 (List.mem_map.mpr ⟨(k₁, v), h, rfl⟩)
      simp only [GoMap.get, hne, if_false]
      exact ih hnd.2 h

/-! ## The table `propMapping` -/

theorem genPropMapping_fold_mem (mappings : List ModelMapping) (acc : GoMap ModelMapping)
    (k : String) (m : ModelMapping)
    (h : GoMap.get (mappings.foldl
      (fun propMapping mapping => GoMap.set propMapping mapping.Attribute mapping) acc) k = some m) :
    (m ∈ mappings ∧ m.Attribute = k) ∨ GoMap.get acc k = some m := by
  induction mappings generalizing acc with
  | nil => exact Or.inr h
  | cons hd tl ih =>
    simp only [List.foldl_cons] at h
    rcases ih _ h with h' | h'
    · exact Or.inl ⟨List.mem_cons_of_mem _ h'.1, h'.2⟩
    · by_cases hk : k = hd.Attribute
      · subst hk
        rw [goMap_get_set_self] at h'
        cases h'
        exact Or.inl ⟨List.mem_cons_self _ _, rfl⟩
      · rw [goMap_get_set_of_ne _ _ _ _ hk] at h'
        exact Or.inr h'

theorem genPropMapping_get_mem (mappings : List ModelMapping) (k : String) (m : ModelMapping)
    (h : GoMap.get (genPropMapping mappings) k = some m) :
    m ∈ mappings ∧ m.Attribute = k := by
  rcases genPropMapping_fold_mem mappings [] k m h with h' | h'
  · exact h'
  · simp [GoMap.get] at h'

/-! ## Facts about float64 -/

theorem log2Loop_eq_log2 (fuel n acc : Nat) (h : n ≤ fuel) :
    Float64.log2Loop fuel n acc = acc + Nat.log2 n := by
  induction fuel generalizing n acc with
  | zero =>
    have : n = 0 := by omega
    subst this
    simp [Float64.log2Loop, Nat.log2]
  | succ k ih =>
    unfold Float64.log2Loop
    by_cases h2 : n < 2
    · simp only [h2, if_true]
      rw [Nat.log2]
      simp [show ¬ (n ≥ 2) by omega]
    · simp only [h2, if_false]
      rw [ih (n / 2) (acc + 1) (by omega)]
      conv_rhs => rw [Nat.log2]
      simp [show n ≥ 2 by omega]
      omega

/-- The loop computes the integer part of the binary logarithm. -/
theorem floorLog2_eq_log2 (n : Nat) : Float64.floorLog2 n = Nat.log2 n := by
  simp [Float64.floorLog2, log2Loop_eq_log2 n n 0 (Nat.le_refl n)]

theorem scale_pos : 0 < Float64.scale := by
  unfold Float64.scale
  exact pow_pos (by norm_num) 1074

theorem mantissaBound_pos : 0 < Float64.mantissaBound := by
  unfold Float64.mantissaBound
  exact pow_pos (by norm_num) 53

theorem overflowMag_pos : 0 < Float64.overflowMag := by
  unfold Float64.overflowMag
  exact pow_pos (by norm_num) 2098

/-- Zero rounds to zero. -/
theorem roundMag_zero (b : Nat) (hb : 0 < b) : Float64.roundMag 0 b = some 0 := by
  have h53 := mantissaBound_pos
  have hov := overflowMag_pos
  have hup : ¬ (b < 0 ∨ (0 = b ∧ 0 % 2 = 1)) := by omega
  unfold Float64.roundMag
  simp only [Nat.zero_div, h53, if_true, Nat.pow_zero, Nat.mul_one, Nat.zero_mod,
    Nat.mul_zero, hup, if_false, Nat.add_zero, Nat.zero_mul, hov]

/-- A positive whole number of units does not round to zero. -/
theorem roundMag_pos (a k : Nat) (ha : 0 < a) (h : Float64.roundMag a 1 = some k) :
    0 < k := by
  unfold Float64.roundMag at h
  simp only [Nat.div_one, Nat.one_mul] at h
  generalize hj : (if a < Float64.mantissaBound then 0 else Float64.floorLog2 a - 52) = j at h
  have hjle : 2 ^ j ≤ a := by
    rw [← hj]
    split
    · simpa using ha
    · rw [floorLog2_eq_log2]
      calc 2 ^ (Nat.log2 a - 52) ≤ 2 ^ Nat.log2 a :=
            Nat.pow_le_pow_right (by norm_num) (Nat.sub_le _ _)
        _ ≤ a := Nat.log2_self_le (Nat.pos_iff_ne_zero.mp ha)
  generalize (if 2 ^ j < 2 * (a % 2 ^ j) ∨ 2 * (a % 2 ^ j) = 2 ^ j ∧ a / 2 ^ j % 2 = 1
    then 1 else 0) = up at h
  have hpos : 0 < (a / 2 ^ j + up) * 2 ^ j :=
    Nat.mul_pos (Nat.add_pos_left (Nat.div_pos hjle (pow_pos (by norm_num) _)) _)
      (pow_pos (by norm_num) _)
  by_cases hov : (a / 2 ^ j + up) * 2 ^ j < Float64.overflowMag
  · rw [if_pos hov] at h
    have := Option.some.inj h
    omega
  · rw [if_neg hov] at h
    exact absurd h (by simp)

theorem ofRound_true_isNegative (a : Nat) (ha : 0 < a) :
    Float64.isNegative (Float64.ofRound true a 1) = true := by
  unfold Float64.ofRound
  cases h : Float64.roundMag a 1 with
  | none => rfl
  | some k =>
    have := roundMag_pos a k ha h
    simp [Float64.isNegative, this]

/-- Comparison: `x < y` excludes `x >= y`. -/
theorem float64_lt_not_ge (x y : Float64) (h : Float64.lt x y = true) :
    Float64.ge x y = false := by
  unfold Float64.lt at h
  unfold Float64.ge
  simp only [Bool.and_eq_true, Bool.not_eq_true', Bool.not_eq_eq_eq_not, Bool.not_true] at h
  exact h.2

/-- The difference `v - L` of two float64 with `v < L` is below zero. -/
theorem sub_isNegative_of_lt (v L : Float64) (hlt : Float64.lt v L = true) :
    Float64.isNegative (Float64.sub v L) = true := by
  unfold Float64.lt at hlt
  simp only [Bool.and_eq_true, Bool.not_eq_true', Bool.not_eq_eq_eq_not, Bool.not_true] at hlt
  obtain ⟨h1, h2⟩ := hlt
  cases v with
  | nan => simp [Float64.le] at h1
  | inf s =>
    cases L with
    | nan => simp [Float64.le] at h1
    | inf t =>
      cases s <;> cases t <;> simp [Float64.le] at h1 h2
      simp [Float64.sub, Float64.neg, Float64.add, Float64.isNegative]
    | fin t n =>
      cases s <;> simp [Float64.le] at h1 h2
      simp [Float64.sub, Float64.neg, Float64.add, Float64.isNegative]
  | fin s m =>
    cases L with
    | nan => simp [Float64.le] at h1
    | inf t =>
      cases t <;> simp [Float64.le] at h1 h2
      simp [Float64.sub, Float64.neg, Float64.add, Float64.isNegative]
    | fin t n =>
      simp only [Float64.le, decide_eq_true_eq, decide_eq_false_iff_not, not_le] at h1 h2
      cases s <;> cases t <;> simp [Float64.signed] at h1 h2
      · -- both not negative
        have hmn : m < n := by omega
        have hne : ¬ m = n := by omega
        have hnlt : ¬ n < m := by omega
        simp only [Float64.sub, Float64.neg, Float64.add, Bool.not_false, hne, hnlt,
          if_false]
        exact ofRound_true_isNegative (n - m) (by omega)
      · omega
      · have hpos : 0 < m + n := by omega
        simp only [Float64.sub, Float64.neg, Float64.add, Bool.not_false, if_true]
        exact ofRound_true_isNegative (m + n) hpos
      · have hnm : n < m := by omega
        have hne : ¬ m = n := by omega
        simp only [Float64.sub, Float64.neg, Float64.add, Bool.not_true, hne, hnm,
          if_false, if_true]
        exact ofRound_true_isNegative (m - n) (by omega)

theorem le_zero_cases (x : Float64) (h : Float64.le Float64.zero x = true) :
    x = Float64.inf false ∨ (∃ n, x = Float64.fin false n) ∨ x = Float64.fin true 0 := by
  cases x with
  | nan => simp [Float64.le, Float64.zero] at h
  | inf s =>
    cases s
    · exact Or.inl rfl
    · simp [Float64.le, Float64.zero] at h
  | fin s n =>
    cases s
    · exact Or.inr (Or.inl ⟨n, rfl⟩)
    · simp [Float64.le, Float64.zero, Float64.signed] at h
      subst h
      exact Or.inr (Or.inr rfl)

theorem ofRound_false_isNaNOrNonneg (a b : Nat) :
    Float64.isNaNOrNonneg (Float64.ofRound false a b) = true := by
  unfold Float64.ofRound
  cases Float64.roundMag a b <;> rfl

theorem ofRound_zero (s : Bool) (b : Nat) (hb : 0 < b) :
    Float64.ofRound s 0 b = Float64.fin s 0 := by
  unfold Float64.ofRound
  rw [roundMag_zero b hb]

/-- The product of two float64 that are not below zero is NaN or not below zero. -/
theorem mul_isNaNOrNonneg (L d : Float64) (hL : Float64.le Float64.zero L = true)
    (hd : Float64.le Float64.zero d = true) :
    Float64.isNaNOrNonneg (Float64.mul L d) = true := by
  rcases le_zero_cases L hL with h | ⟨m, h⟩ | h <;>
    rcases le_zero_cases d hd with h' | ⟨n, h'⟩ | h' <;> subst h <;> subst h'
  · rfl
  · simp only [Float64.mul]
    split <;> rfl
  · rfl
  · simp only [Float64.mul]
    split <;> rfl
  · simp only [Float64.mul, Bool.xor_false]
    exact ofRound_false_isNaNOrNonneg _ _
  · simp only [Float64.mul, Nat.mul_zero]
    rw [ofRound_zero _ _ scale_pos]
    cases (xor false true) <;> rfl
  · rfl
  · simp only [Float64.mul, Nat.zero_mul]
    rw [ofRound_zero _ _ scale_pos]
    cases (xor true false) <;> rfl
  · simp only [Float64.mul, Nat.zero_mul]
    rw [ofRound_zero _ _ scale_pos]
    cases (xor true true) <;> rfl

/-- The constant 100 is finite and positive. -/
theorem hundred_eq : Float64.hundred = Float64.fin false (100 * Float64.scale) := by
  decide!

/-- A quotient by 100 of a float64 that is NaN or not below zero is NaN or not
below zero. -/
theorem div_hundred_isNaNOrNonneg (x : Float64) (h : Float64.isNaNOrNonneg x = true) :
    Float64.isNaNOrNonneg (Float64.div x Float64.hundred) = true := by
  have hne : ¬ (100 * Float64.scale = 0) := by
    have := scale_pos
    omega
  rw [hundred_eq]
  cases x with
  | nan => rfl
  | inf s =>
    cases s
    · rfl
    · simp [Float64.isNaNOrNonneg] at h
  | fin s m =>
    cases s
    · simp only [Float64.div, hne, if_false, Bool.xor_false]
      exact ofRound_false_isNaNOrNonneg _ _
    · simp [Float64.isNaNOrNonneg] at h
      subst h
      simp only [Float64.div, hne, if_false, Nat.zero_mul]
      rw [ofRound_zero _ _ (by omega)]
      rfl

/-- A float64 below zero is not `>=` a float64 that is NaN or not below zero. -/
theorem ge_false_of_isNegative (a b : Float64) (ha : Float64.isNegative a = true)
    (hb : Float64.isNaNOrNonneg b = true) : Float64.ge a b = false := by
  unfold Float64.ge
  cases a with
  | nan => simp [Float64.isNegative] at ha
  | inf s =>
    simp [Float64.isNegative] at ha
    subst ha
    cases b with
    | nan => rfl
    | inf t =>
      simp [Float64.isNaNOrNonneg] at hb
      subst hb
      rfl
    | fin t n => rfl
  | fin s m =>
    simp [Float64.isNegative] at ha
    obtain ⟨hs, hm⟩ := ha
    subst hs
    cases b with
    | nan => rfl
    | inf t =>
      simp [Float64.isNaNOrNonneg] at hb
      subst hb
      rfl
    | fin t n =>
      simp [Float64.isNaNOrNonneg] at hb
      simp only [Float64.le, decide_eq_false_iff_not, not_le]
      rcases hb with hb | hb
      · subst hb
        simp [Float64.signed]
        omega
      · subst hb
        cases t <;> simp [Float64.signed] <;> omega

/-- The deviation test fails for a decrease against a last value and a deviation
that are not below zero. -/
theorem deviationTest_false_of_decrease (v L d : Float64)
    (hL : Float64.le Float64.zero L = true) (hd : Float64.le Float64.zero d = true)
    (hlt : Float64.lt v L = true) : deviationTest v L d = false := by
  unfold deviationTest
  exact ge_false_of_isNegative _ _ (sub_isNegative_of_lt v L hlt)
    (div_hundred_isNaNOrNonneg _ (mul_isNaNOrNonneg L d hL hd))

/-- The deviation test of a finite value against itself is the test "threshold
`<= 0`". -/
theorem deviationTest_self (s : Bool) (n : Nat) (d : Float64) :
    deviationTest (Float64.fin s n) (Float64.fin s n) d
      = Float64.le (Float64.div (Float64.mul (Float64.fin s n) d) Float64.hundred)
          Float64.zero := by
  unfold deviationTest Float64.ge Float64.sub
  cases s <;> simp [Float64.neg, Float64.add, Float64.zero]

/-! ## One step of the filter loop -/

theorem accept_accept (now : Int) (st : FilterState) (k : String) (v : Value) :
    accept now (accept now st k v) k v = accept now st k v := by
  simp [accept, goMap_set_set_self]

theorem filterStep_cases (now : Int) (pm : GoMap ModelMapping) (st : FilterState)
    (kv : String × Value) :
    filterStep now pm st kv = st ∨
      ((∃ m, GoMap.get pm kv.1 = some m) ∧ filterStep now pm st kv = accept now st kv.1 kv.2) := by
  unfold filterStep
  cases hpm : GoMap.get pm kv.1 with
  | none => exact Or.inl rfl
  | some mapping =>
    simp only []
    by_cases h1 : firstOrOutOfSilentWin now st.lastReportProperties kv.1 mapping = true
    · simp only [h1, if_true]
      right
      refine ⟨⟨mapping, rfl⟩, ?_⟩
      split
      · split
        · rfl
        · split
          · rfl
          · split
            · exact accept_accept now st kv.1 kv.2
            · rfl
      · rfl
    · simp only [h1]
      split
      · split
        · exact Or.inl rfl
        · split
          · exact Or.inl rfl
          · split
            · exact Or.inr ⟨⟨mapping, rfl⟩, rfl⟩
            · exact Or.inl rfl
      · exact Or.inl rfl

theorem filterStep_other_key (now : Int) (pm : GoMap ModelMapping) (st : FilterState)
    (kv : String × Value) (k : String) (hk : k ≠ kv.1) :
    GoMap.get (filterStep now pm st kv).filterReport k = GoMap.get st.filterReport k ∧
    GoMap.get (filterStep now pm st kv).lastReportProperties k
      = GoMap.get st.lastReportProperties k := by
  rcases filterStep_cases now pm st kv with h | ⟨_, h⟩
  · rw [h]
    exact ⟨rfl, rfl⟩
  · rw [h]
    exact ⟨goMap_get_set_of_ne _ _ _ _ hk, goMap_get_set_of_ne _ _ _ _ hk⟩

theorem firstOrOutOfSilentWin_congr (now : Int) (l₁ l₂ : GoMap ReportProperty) (k : String)
    (m : ModelMapping) (h : GoMap.get l₁ k = GoMap.get l₂ k) :
    firstOrOutOfSilentWin now l₁ k m = firstOrOutOfSilentWin now l₂ k m := by
  simp [firstOrOutOfSilentWin, h]

theorem lastValue_congr (l₁ l₂ : GoMap ReportProperty) (k : String)
    (h : GoMap.get l₁ k = GoMap.get l₂ k) : lastValue l₁ k = lastValue l₂ k := by
  simp [lastValue, h]

theorem lastValue_accept (now : Int) (st : FilterState) (k : String) (v : Value) :
    lastValue (accept now st k v).lastReportProperties k = v := by
  simp [lastValue, accept, goMap_get_set_self]

/-- A mapped key that is reported for the first time, or after its silent window,
is accepted by the step. -/
theorem filterStep_of_first (now : Int) (pm : GoMap ModelMapping) (st : FilterState)
    (k : String) (v : Value) (m : ModelMapping) (hpm : GoMap.get pm k = some m)
    (h1 : firstOrOutOfSilentWin now st.lastReportProperties k m = true) :
    filterStep now pm st (k, v) = accept now st k v := by
  unfold filterStep
  simp only [hpm, h1, if_true]
  split
  · split
    · rfl
    · split
      · rfl
      · split
        · exact accept_accept now st k v
        · rfl
  · rfl

/-- A mapped key whose numeric value passes the deviation test against the stored
value is accepted by the step. -/
theorem filterStep_of_deviation (now : Int) (pm : GoMap ModelMapping) (st : FilterState)
    (k : String) (v : Value) (m : ModelMapping) (pv L : Float64)
    (hpm : GoMap.get pm k = some m) (hcalc : isCalculable v = true)
    (hv : parseValueToFloat64 v = Except.ok pv)
    (hL : parseValueToFloat64 (lastValue st.lastReportProperties k) = Except.ok L)
    (hdev : deviationTest pv L m.Deviation = true) :
    filterStep now pm st (k, v) = accept now st k v := by
  by_cases h1 : firstOrOutOfSilentWin now st.lastReportProperties k m = true
  · exact filterStep_of_first now pm st k v m hpm h1
  · unfold filterStep
    simp [hpm, h1, hcalc, hv, hL, hdev]

/-- A mapped key inside its silent window whose value is not numeric, or whose
stored value is not numeric, or that fails the deviation test, is left out by the
step. -/
theorem filterStep_of_reject (now : Int) (pm : GoMap ModelMapping) (st : FilterState)
    (k : String) (v : Value) (m : ModelMapping) (hpm : GoMap.get pm k = some m)
    (h1 : firstOrOutOfSilentWin now st.lastReportProperties k m = false)
    (hrej : isCalculable v = false ∨
      (∃ e, parseValueToFloat64 (lastValue st.lastReportProperties k) = Except.error e) ∨
      (∃ pv L, parseValueToFloat64 v = Except.ok pv ∧
        parseValueToFloat64 (lastValue st.lastReportProperties k) = Except.ok L ∧
        deviationTest pv L m.Deviation = false)) :
    filterStep now pm st (k, v) = st := by
  unfold filterStep
  simp only [hpm, h1]
  rcases hrej with h | ⟨e, h⟩ | ⟨pv, L, hv, hL, hdev⟩
  · simp [h]
  · split
    · split
      · rfl
      · simp [h]
    · rfl
  · simp [hv, hL, hdev]

/-! ## The filter loop -/

theorem filterLoop_cons (now : Int) (pm : GoMap ModelMapping) (st : FilterState)
    (kv : String × Value) (report : Report) :
    filterLoop now pm st (kv :: report) = filterLoop now pm (filterStep now pm st kv) report := by
  simp [filterLoop]

/-- The loop does not touch a key that is not in the report. -/
theorem filterLoop_not_in_keys (now : Int) (pm : GoMap ModelMapping) (report : Report)
    (st : FilterState) (k : String) (hk : k ∉ GoMap.keys report) :
    GoMap.get (filterLoop now pm st report).filterReport k = GoMap.get st.filterReport k ∧
    GoMap.get (filterLoop now pm st report).lastReportProperties k
      = GoMap.get st.lastReportProperties k := by
  induction report generalizing st with
  | nil => exact ⟨rfl, rfl⟩
  | cons hd tl ih =>
    rw [filterLoop_cons]
    simp only [GoMap.keys, List.map_cons, List.mem_cons, not_or] at hk
    have h1 := ih (filterStep now pm st hd) hk.2
    have h2 := filterStep_other_key now pm st hd k hk.1
    exact ⟨h1.1.trans h2.1, h1.2.trans h2.2⟩

/-- In a report with distinct keys, what the loop does to a key is what the step
on that key does, from a state with the initial entries for the key. -/
theorem filterLoop_at_key (now : Int) (pm : GoMap ModelMapping) (report : Report)
    (st : FilterState) (k : String) (v : Value)
    (hnd : (GoMap.keys report).Nodup) (hmem : (k, v) ∈ report) :
    ∃ st₁ : FilterState,
      GoMap.get st₁.lastReportProperties k = GoMap.get st.lastReportProperties k ∧
      GoMap.get st₁.filterReport k = GoMap.get st.filterReport k ∧
      GoMap.get (filterLoop now pm st report).filterReport k
        = GoMap.get (filterStep now pm st₁ (k, v)).filterReport k ∧
      GoMap.get (filterLoop now pm st report).lastReportProperties k
        = GoMap.get (filterStep now pm st₁ (k, v)).lastReportProperties k := by
  induction report generalizing st with
  | nil => simp at hmem
  | cons hd tl ih =>
    rw [filterLoop_cons]
    simp only [GoMap.keys, List.map_cons, List.nodup_cons] at hnd
    rcases List.mem_cons.mp hmem with h | h
    · subst h
      have := filterLoop_not_in_keys now pm tl (filterStep now pm st (k, v)) k hnd.1
      exact ⟨st, rfl, rfl, this.1, this.2⟩
    · have hne : k ≠ hd.1 := by
        intro he
        exact hnd.1 (List.mem_map.mpr ⟨(k, v), h, by simp [he]⟩)
      obtain ⟨st₁, h1, h2, h3, h4⟩ := ih (filterStep now pm st hd) hnd.2 h
      have h0 := filterStep_other_key now pm st hd k hne
      exact ⟨st₁, h1.trans h0.2, h2.trans h0.1, h3, h4⟩

/-- Every binding of the filtered report was there before the loop or is a
binding of the report whose key is mapped. -/
theorem filterLoop_mem (now : Int) (pm : GoMap ModelMapping) (report : Report)
    (st : FilterState) (p : String × Value)
    (hp : p ∈ (filterLoop now pm st report).filterReport) :
    p ∈ st.filterReport ∨ (p ∈ report ∧ ∃ m, GoMap.get pm p.1 = some m) := by
  induction report generalizing st with
  | nil => exact Or.inl hp
  | cons hd tl ih =>
    rw [filterLoop_cons] at hp
    rcases ih _ hp with h | ⟨h, hm⟩
    · rcases filterStep_cases now pm st hd with hs | ⟨hm, hs⟩
      · rw [hs] at h
        exact Or.inl h
      · rw [hs] at h
        rcases goMap_mem_set _ _ _ _ h with h' | h'
        · right
          have : p = hd := h'
          subst this
          exact ⟨List.mem_cons_self _ _, hm⟩
        · exact Or.inl h'
    · exact Or.inr ⟨List.mem_cons_of_mem _ h, hm⟩

/-- For every key, the loop either leaves both entries of the key as they were, or
ends with a reported value of the key in the filtered report and in the filter
state, stamped `now`. -/
theorem filterLoop_key_inv (now : Int) (pm : GoMap ModelMapping) (report : Report)
    (st : FilterState) (k : String) :
    (GoMap.get (filterLoop now pm st report).filterReport k = GoMap.get st.filterReport k ∧
      GoMap.get (filterLoop now pm st report).lastReportProperties k
        = GoMap.get st.lastReportProperties k) ∨
    (∃ v, (k, v) ∈ report ∧
      GoMap.get (filterLoop now pm st report).filterReport k = some v ∧
      GoMap.get (filterLoop now pm st report).lastReportProperties k = some ⟨now, v⟩) := by
  induction report generalizing st with
  | nil => exact Or.inl ⟨rfl, rfl⟩
  | cons hd tl ih =>
    rw [filterLoop_cons]
    rcases ih (filterStep now pm st hd) with ⟨h1, h2⟩ | ⟨v, hv, h1, h2⟩
    · rcases filterStep_cases now pm st hd with hs | ⟨_, hs⟩
      · rw [hs] at h1 h2 ⊢
        exact Or.inl ⟨h1, h2⟩
      · by_cases hk : k = hd.1
        · right
          refine ⟨hd.2, ?_, ?_, ?_⟩
          · rw [hk]
            exact List.mem_cons_self _ _
          · rw [h1, hs, hk]
            exact goMap_get_set_self _ _ _
          · rw [h2, hs, hk]
            exact goMap_get_set_self _ _ _
        · left
          have h0 := filterStep_other_key now pm st hd k hk
          exact ⟨h1.trans h0.1, h2.trans h0.2⟩
    · exact Or.inr ⟨v, List.mem_cons_of_mem _ hv, h1, h2⟩

/-! ## The method `ReportDevicePropertiesWithFilter` -/

theorem reportDeviceProperties_ctx (env : Env) (c : DmCtx) (info : DeviceInfo)
    (report : Report) : (ReportDeviceProperties env c info report).ctx = c := by
  unfold ReportDeviceProperties
  simp only []
  split <;> rfl

theorem withFilter_eq (env : Env) (now : Int) (c : DmCtx) (device : DeviceInfo)
    (report : Report) (tpl : AccessTemplate)
    (htpl : GetAccessTemplates c device = Except.ok tpl) :
    ReportDevicePropertiesWithFilter env now c device report
      = ReportDeviceProperties env
          { c with lastReportProperties :=
              (filterReport now tpl c.lastReportProperties report).lastReportProperties }
          device (filterReport now tpl c.lastReportProperties report).filterReport := by
  unfold ReportDevicePropertiesWithFilter
  rw [htpl]

theorem withFilter_of_error (env : Env) (now : Int) (c : DmCtx) (device : DeviceInfo)
    (report : Report) (e : Error)
    (htpl : GetAccessTemplates c device = Except.error e) :
    ReportDevicePropertiesWithFilter env now c device report
      = { ctx := c, err := some e, effects := [] } := by
  unfold ReportDevicePropertiesWithFilter
  rw [htpl]

theorem withFilter_last (env : Env) (now : Int) (c : DmCtx) (device : DeviceInfo)
    (report : Report) (tpl : AccessTemplate)
    (htpl : GetAccessTemplates c device = Except.ok tpl) :
    (ReportDevicePropertiesWithFilter env now c device report).ctx.lastReportProperties
      = (filterReport now tpl c.lastReportProperties report).lastReportProperties := by
  rw [withFilter_eq env now c device report tpl htpl, reportDeviceProperties_ctx]

theorem goMap_not_mem_keys_of_get_none {α : Type} (m : GoMap α) (k : String)
    (h : GoMap.get m k = none) : k ∉ GoMap.keys m := by
  intro hk
  obtain ⟨p, hp, hpk⟩ := List.mem_map.mp hk
  obtain ⟨w, hw⟩ := goMap_get_isSome_of_mem m k p.2 (by rw [← hpk]; exact hp)
  rw [h] at hw
  cases hw

theorem parse_of_isCalculable (v : Value) (h : isCalculable v = true) :
    ∃ pv, parseValueToFloat64 v = Except.ok pv := by
  cases v <;> simp [isCalculable] at h <;> exact ⟨_, rfl⟩

/-- A mapped key inside its silent window whose value is rejected by the step is
not in the filtered report, and its filter state stays as it was. -/
theorem filterReport_reject (now : Int) (tpl : AccessTemplate) (last : GoMap ReportProperty)
    (report : Report) (key : String) (value : Value) (mapping : ModelMapping)
    (stored : ReportProperty)
    (hnd : (GoMap.keys report).Nodup) (hmem : (key, value) ∈ report)
    (hmap : GoMap.get (genPropMapping tpl.Mappings) key = some mapping)
    (hlast : GoMap.get last key = some stored)
    (hwin : ¬ (Time.Sub now stored.Time > silentWindow mapping))
    (hrej : isCalculable value = false ∨
      (∃ e, parseValueToFloat64 stored.Value = Except.error e) ∨
      (∃ pv L, parseValueToFloat64 value = Except.ok pv ∧
        parseValueToFloat64 stored.Value = Except.ok L ∧
        deviationTest pv L mapping.Deviation = false)) :
    GoMap.get (filterReport now tpl last report).filterReport key = none ∧
    GoMap.get (filterReport now tpl last report).lastReportProperties key = some stored := by
  obtain ⟨st₁, h1, h2, h3, h4⟩ := filterLoop_at_key now (genPropMapping tpl.Mappings) report
    { filterReport := [], lastReportProperties := last } key value hnd hmem
  simp only [] at h1 h2
  have hf : firstOrOutOfSilentWin now st₁.lastReportProperties key mapping = false := by
    unfold firstOrOutOfSilentWin
    rw [h1, hlast]
    simp [hwin]
  have hlv : lastValue st₁.lastReportProperties key = stored.Value := by
    unfold lastValue
    rw [h1, hlast]
  have hstep := filterStep_of_reject now _ st₁ key value mapping hmap hf (by rw [hlv]; exact hrej)
  rw [hstep] at h3 h4
  unfold filterReport
  rw [h3, h4, h1, h2, hlast]
  exact ⟨rfl, rfl⟩

/-- A mapped key whose numeric value passes the deviation test against the stored
numeric value is in the filtered report, and its filter state is `(now, value)`. -/
theorem filterReport_accept_deviation (now : Int) (tpl : AccessTemplate)
    (last : GoMap ReportProperty) (report : Report) (key : String) (value : Value)
    (mapping : ModelMapping) (stored : ReportProperty) (pv L : Float64)
    (hnd : (GoMap.keys report).Nodup) (hmem : (key, value) ∈ report)
    (hmap : GoMap.get (genPropMapping tpl.Mappings) key = some mapping)
    (hlast : GoMap.get last key = some stored)
    (hcalc : isCalculable value = true)
    (hv : parseValueToFloat64 value = Except.ok pv)
    (hL : parseValueToFloat64 stored.Value = Except.ok L)
    (hdev : deviationTest pv L mapping.Deviation = true) :
    GoMap.get (filterReport now tpl last report).filterReport key = some value ∧
    GoMap.get (filterReport now tpl last report).lastReportProperties key
      = some ⟨now, value⟩ := by
  obtain ⟨st₁, h1, _, h3, h4⟩ := filterLoop_at_key now (genPropMapping tpl.Mappings) report
    { filterReport := [], lastReportProperties := last } key value hnd hmem
  simp only [] at h1
  have hlv : lastValue st₁.lastReportProperties key = stored.Value := by
    unfold lastValue
    rw [h1, hlast]
  have hstep := filterStep_of_deviation now _ st₁ key value mapping pv L hmap hcalc hv
    (by rw [hlv]; exact hL) hdev
  rw [hstep] at h3 h4
  unfold filterReport
  rw [h3, h4]
  exact ⟨goMap_get_set_self _ _ _, goMap_get_set_self _ _ _⟩

/-- The filter state of `ctxAfterFirstReport` is the one the first report of
`(x: 100)` by device `a` at time 0 leaves. -/
theorem ctxAfterFirstReport_reached :
    (ReportDevicePropertiesWithFilter exampleEnv 0 exampleCtx deviceA
      [("x", Value.int 100)]).ctx.lastReportProperties
      = ctxAfterFirstReport.lastReportProperties := by
  decide!

/-- The filter state of `ctxAfterNegativeReport` is the one the first report of
`(x: -100)` by device `a` at time 0 leaves. -/
theorem ctxAfterNegativeReport_reached :
    (ReportDevicePropertiesWithFilter exampleEnv 0 exampleCtx deviceA
      [("x", Value.int (-100))]).ctx.lastReportProperties
      = ctxAfterNegativeReport.lastReportProperties := by
  decide!

/-- Claim C1: for a device whose access template exists, the report that
`ReportDevicePropertiesWithFilter` publishes is the filtered report; a key that
is the attribute of no mapping of the template is not a key of it, at any time and
from any filter state; and every binding of it is a binding of the input report. -/
theorem withFilter_drops_unmapped_keys (env : Env) (now : Int) (c : DmCtx)
    (device : DeviceInfo) (report : Report) (tpl : AccessTemplate)
    (htpl : GetAccessTemplates c device = Except.ok tpl) :
    ReportDevicePropertiesWithFilter env now c device report
      = ReportDeviceProperties env
          { c with lastReportProperties :=
              (filterReport now tpl c.lastReportProperties report).lastReportProperties }
          device (filterReport now tpl c.lastReportProperties report).filterReport ∧
    (∀ k, (∀ m ∈ tpl.Mappings, m.Attribute ≠ k) →
      k ∉ GoMap.keys (filterReport now tpl c.lastReportProperties report).filterReport) ∧
    (∀ k v, (k, v) ∈ (filterReport now tpl c.lastReportProperties report).filterReport →
      (k, v) ∈ report) := by
  have hmem : ∀ p, p ∈ (filterReport now tpl c.lastReportProperties report).filterReport →
      p ∈ report ∧ ∃ m, GoMap.get (genPropMapping tpl.Mappings) p.1 = some m := by
    intro p hp
    rcases filterLoop_mem now _ report _ p hp with h | h
    · simp at h
    · exact h
  refine ⟨withFilter_eq env now c device report tpl htpl, ?_, ?_⟩
  · intro k hk hin
    obtain ⟨p, hp, hpk⟩ := List.mem_map.mp hin
    obtain ⟨m, hm⟩ := (hmem p hp).2
    have := genPropMapping_get_mem tpl.Mappings p.1 m hm
    exact hk m this.1 (this.2.trans hpk)
  · intro k v hkv
    exact (hmem (k, v) hkv).1

/-- Witness of C1 on the example gateway: the unmapped key `y` of the report
`(x: 100, y: 3)` of device `a` is not published. -/
theorem withFilter_drops_unmapped_keys_witness :
    "y" ∉ GoMap.keys
      (filterReport 0 exampleTemplate exampleCtx.lastReportProperties
        [("x", Value.int 100), ("y", Value.int 3)]).filterReport :=
  (withFilter_drops_unmapped_keys exampleEnv 0 exampleCtx deviceA
    [("x", Value.int 100), ("y", Value.int 3)] exampleTemplate rfl).2.1 "y" (by decide)

/-- Claim C2: a mapped key of the report that has no filter state (first report),
or whose stored timestamp is older than the silent window of its mapping, is in
the filtered report with the reported value, and its filter state becomes
`(now, value)`, whatever the value and the deviation are. -/
theorem withFilter_accepts_first_or_after_silentWin (env : Env) (now : Int) (c : DmCtx)
    (device : DeviceInfo) (report : Report) (tpl : AccessTemplate)
    (key : String) (value : Value) (mapping : ModelMapping)
    (htpl : GetAccessTemplates c device = Except.ok tpl)
    (hnd : (GoMap.keys report).Nodup)
    (hmem : (key, value) ∈ report)
    (hmap : GoMap.get (genPropMapping tpl.Mappings) key = some mapping)
    (hfirst : GoMap.get c.lastReportProperties key = none ∨
      ∃ p, GoMap.get c.lastReportProperties key = some p ∧
        Time.Sub now p.Time > silentWindow mapping) :
    ReportDevicePropertiesWithFilter env now c device report
      = ReportDeviceProperties env
          { c with lastReportProperties :=
              (filterReport now tpl c.lastReportProperties report).lastReportProperties }
          device (filterReport now tpl c.lastReportProperties report).filterReport ∧
    GoMap.get (filterReport now tpl c.lastReportProperties report).filterReport key
      = some value ∧
    GoMap.get (ReportDevicePropertiesWithFilter env now c device report).ctx.lastReportProperties
      key = some ⟨now, value⟩ := by
  refine ⟨withFilter_eq env now c device report tpl htpl, ?_⟩
  rw [withFilter_last env now c device report tpl htpl]
  obtain ⟨st₁, h1, _, h3, h4⟩ := filterLoop_at_key now (genPropMapping tpl.Mappings) report
    { filterReport := [], lastReportProperties := c.lastReportProperties } key value hnd hmem
  have hf : firstOrOutOfSilentWin now st₁.lastReportProperties key mapping = true := by
    unfold firstOrOutOfSilentWin
    rw [h1]
    rcases hfirst with h | ⟨p, hp, hgt⟩
    · simp [h]
    · simp [hp, hgt]
  have hstep := filterStep_of_first now _ st₁ key value mapping hmap hf
  rw [hstep] at h3 h4
  unfold filterReport
  rw [h3, h4]
  exact ⟨goMap_get_set_self _ _ _, goMap_get_set_self _ _ _⟩

/-- Witness of C2, the example of the spec: silent window 60 s, `(x: 100)`
accepted at time 0, the report `(x: 100)` at 61 s is accepted. -/
theorem withFilter_accepts_first_or_after_silentWin_witness :
    GoMap.get (filterReport (61 * Second) exampleTemplate
      ctxAfterFirstReport.lastReportProperties [("x", Value.int 100)]).filterReport "x"
      = some (Value.int 100) :=
  (withFilter_accepts_first_or_after_silentWin exampleEnv (61 * Second) ctxAfterFirstReport
    deviceA [("x", Value.int 100)] exampleTemplate "x" (Value.int 100) mappingX rfl
    (by decide) (by simp) rfl
    (Or.inr ⟨⟨0, Value.int 100⟩, rfl, by decide⟩)).2.1

/-- The filter states of the contexts `ctxStored` used below are the ones that the
first report of the stored value at time 0 leaves. -/
theorem ctxStored_reached :
    (ReportDevicePropertiesWithFilter exampleEnv 0 (ctxFresh exampleTemplate) deviceA
      [("x", Value.float64 float2_3)]).ctx.lastReportProperties
      = (ctxStored exampleTemplate (Value.float64 float2_3)).lastReportProperties ∧
    (ReportDevicePropertiesWithFilter exampleEnv 0 (ctxFresh template20) deviceA
      [("x", Value.float64 float3_13)]).ctx.lastReportProperties
      = (ctxStored template20 (Value.float64 float3_13)).lastReportProperties ∧
    (ReportDevicePropertiesWithFilter exampleEnv 0 (ctxFresh template0) deviceA
      [("x", Value.int64 (2 ^ 53 + 1))]).ctx.lastReportProperties
      = (ctxStored template0 (Value.int64 (2 ^ 53 + 1))).lastReportProperties ∧
    (ReportDevicePropertiesWithFilter exampleEnv 0 (ctxFresh exampleTemplate) deviceA
      [("x", Value.float64 (Float64.inf true))]).ctx.lastReportProperties
      = (ctxStored exampleTemplate (Value.float64 (Float64.inf true))).lastReportProperties := by
  refine ⟨by decide!, by decide!, by decide!, by decide!⟩

/-- Claim C3, counterexample: deviation 10 %, stored `x = 2.3` (float64) of time 0,
report `x = 2.53` (float64) at 30 s.  On the numbers that the two float64 denote,
`v - L >= L * 10 / 100` holds, but the code computes `v - L` below the rounded
threshold `0.23` and suppresses the value: the filtered report is empty and the
filter state keeps `2.3`. -/
theorem withFilter_exact_deviation_suppressed :
    GoMap.get (ctxStored exampleTemplate (Value.float64 float2_3)).lastReportProperties "x"
      = some ⟨0, Value.float64 float2_3⟩ ∧
    isCalculable (Value.float64 float2_53) = true ∧
    exactValue (Value.float64 float2_53) - exactValue (Value.float64 float2_3)
      ≥ exactValue (Value.float64 float2_3) * Float64.toRat mappingX.Deviation / 100 ∧
    (filterReport (30 * Second) exampleTemplate
      (ctxStored exampleTemplate (Value.float64 float2_3)).lastReportProperties
      [("x", Value.float64 float2_53)]).filterReport = [] ∧
    GoMap.get (ReportDevicePropertiesWithFilter exampleEnv (30 * Second)
      (ctxStored exampleTemplate (Value.float64 float2_3)) deviceA
      [("x", Value.float64 float2_53)]).ctx.lastReportProperties "x"
      = some ⟨0, Value.float64 float2_3⟩ := by
  refine ⟨by decide!, by decide, by decide!, by decide!, by decide!⟩

/-- Claim C3, amended: a mapped key with a stored numeric value `L` and a numeric
reported value `v`, both converted to float64, for which the float64 evaluation of
`v - L >= L * deviation / 100` holds (each operation rounded to the nearest
float64) is in the filtered report with the reported value, and its filter state
becomes `(now, value)`; the silent window plays no part. -/
theorem withFilter_accepts_deviation (env : Env) (now : Int) (c : DmCtx)
    (device : DeviceInfo) (report : Report) (tpl : AccessTemplate)
    (key : String) (value : Value) (mapping : ModelMapping) (stored : ReportProperty)
    (v L : Float64)
    (htpl : GetAccessTemplates c device = Except.ok tpl)
    (hnd : (GoMap.keys report).Nodup)
    (hmem : (key, value) ∈ report)
    (hmap : GoMap.get (genPropMapping tpl.Mappings) key = some mapping)
    (hlast : GoMap.get c.lastReportProperties key = some stored)
    (hL : parseValueToFloat64 stored.Value = Except.ok L)
    (hcalc : isCalculable value = true)
    (hv : parseValueToFloat64 value = Except.ok v)
    (hdev : Float64.ge (Float64.sub v L)
      (Float64.div (Float64.mul L mapping.Deviation) Float64.hundred) = true) :
    ReportDevicePropertiesWithFilter env now c device report
      = ReportDeviceProperties env
          { c with lastReportProperties :=
              (filterReport now tpl c.lastReportProperties report).lastReportProperties }
          device (filterReport now tpl c.lastReportProperties report).filterReport ∧
    GoMap.get (filterReport now tpl c.lastReportProperties report).filterReport key
      = some value ∧
    GoMap.get (ReportDevicePropertiesWithFilter env now c device report).ctx.lastReportProperties
      key = some ⟨now, value⟩ := by
  refine ⟨withFilter_eq env now c device report tpl htpl, ?_⟩
  rw [withFilter_last env now c device report tpl htpl]
  exact filterReport_accept_deviation now tpl c.lastReportProperties report key value mapping
    stored v L hnd hmem hmap hlast hcalc hv hL hdev

/-- Witness of C3 amended, the example of the spec: deviation 10 %, `(x: 100)`
accepted at time 0, the report `(x: 112)` at 30 s, inside the silent window of
60 s, is accepted; so is the report `(x: 110)`, whose change equals the
threshold (`10 >= 10`). -/
theorem withFilter_accepts_deviation_witness :
    ¬ (Time.Sub (30 * Second) 0 > silentWindow mappingX) ∧
    GoMap.get (filterReport (30 * Second) exampleTemplate
      ctxAfterFirstReport.lastReportProperties [("x", Value.int 112)]).filterReport "x"
      = some (Value.int 112) ∧
    GoMap.get (filterReport (30 * Second) exampleTemplate
      ctxAfterFirstReport.lastReportProperties [("x", Value.int 110)]).filterReport "x"
      = some (Value.int 110) :=
  ⟨by decide,
   (withFilter_accepts_deviation exampleEnv (30 * Second) ctxAfterFirstReport
    deviceA [("x", Value.int 112)] exampleTemplate "x" (Value.int 112) mappingX
    ⟨0, Value.int 100⟩ (Float64.ofInt 112) (Float64.ofInt 100) rfl
    (by decide) (by simp) rfl rfl rfl rfl rfl (by decide!)).2.1,
   (withFilter_accepts_deviation exampleEnv (30 * Second) ctxAfterFirstReport
    deviceA [("x", Value.int 110)] exampleTemplate "x" (Value.int 110) mappingX
    ⟨0, Value.int 100⟩ (Float64.ofInt 110) (Float64.ofInt 100) rfl
    (by decide) (by simp) rfl rfl rfl rfl rfl (by decide!)).2.1⟩

/-- Claim C4, counterexample: deviation 20 %, silent window 60 s, stored
`x = 3.13` (float64, `> 0`) of time 0, report `x = 3.756` (float64) at 30 s.  On
the numbers that the two float64 denote, `v - L < L * 20 / 100` holds, but the
code computes the difference and the threshold as the same float64 and accepts
the value. -/
theorem withFilter_exact_small_change_accepted :
    GoMap.get (ctxStored template20 (Value.float64 float3_13)).lastReportProperties "x"
      = some ⟨0, Value.float64 float3_13⟩ ∧
    GoMap.get (genPropMapping template20.Mappings) "x" = some mappingX20 ∧
    0 < exactValue (Value.float64 float3_13) ∧
    0 < Float64.toRat mappingX20.Deviation ∧
    Time.Sub (30 * Second) 0 ≤ silentWindow mappingX20 ∧
    exactValue (Value.float64 float3_756) - exactValue (Value.float64 float3_13)
      < exactValue (Value.float64 float3_13) * Float64.toRat mappingX20.Deviation / 100 ∧
    (filterReport (30 * Second) template20
      (ctxStored template20 (Value.float64 float3_13)).lastReportProperties
      [("x", Value.float64 float3_756)]).filterReport = [("x", Value.float64 float3_756)] := by
  refine ⟨by decide!, by decide!, by decide!, by decide!, by decide!, by decide!, by decide!⟩

/-- Claim C4, amended: a mapped key with a stored numeric value `L`, reported with
a numeric value `v` not later than the silent window after the stored time and
for which the float64 evaluation of `v - L < L * deviation / 100` holds (both
values converted to float64, each operation rounded to the nearest float64), is
not a key of the filtered report (for every `L` and deviation, in particular for
`L > 0` and a deviation `> 0`). -/
theorem withFilter_suppresses_inside_silentWin (env : Env) (now : Int) (c : DmCtx)
    (device : DeviceInfo) (report : Report) (tpl : AccessTemplate)
    (key : String) (value : Value) (mapping : ModelMapping) (stored : ReportProperty)
    (v L : Float64)
    (htpl : GetAccessTemplates c device = Except.ok tpl)
    (hnd : (GoMap.keys report).Nodup)
    (hmem : (key, value) ∈ report)
    (hmap : GoMap.get (genPropMapping tpl.Mappings) key = some mapping)
    (hlast : GoMap.get c.lastReportProperties key = some stored)
    (hL : parseValueToFloat64 stored.Value = Except.ok L)
    (hv : parseValueToFloat64 value = Except.ok v)
    (hwin : Time.Sub now stored.Time ≤ silentWindow mapping)
    (hsmall : Float64.lt (Float64.sub v L)
      (Float64.div (Float64.mul L mapping.Deviation) Float64.hundred) = true) :
    ReportDevicePropertiesWithFilter env now c device report
      = ReportDeviceProperties env
          { c with lastReportProperties :=
              (filterReport now tpl c.lastReportProperties report).lastReportProperties }
          device (filterReport now tpl c.lastReportProperties report).filterReport ∧
    key ∉ GoMap.keys (filterReport now tpl c.lastReportProperties report).filterReport := by
  refine ⟨withFilter_eq env now c device report tpl htpl, ?_⟩
  apply goMap_not_mem_keys_of_get_none
  exact (filterReport_reject now tpl c.lastReportProperties report key value mapping stored
    hnd hmem hmap hlast (not_lt.mpr hwin)
    (Or.inr (Or.inr ⟨v, L, hv, hL, float64_lt_not_ge _ _ hsmall⟩))).1

/-- Witness of C4 amended, the example of the spec: silent window 60 s, deviation
10 %, `(x: 100)` accepted at time 0; the report `(x: 100)` at 30 s gives an empty
filtered report. -/
theorem withFilter_suppresses_inside_silentWin_witness :
    "x" ∉ GoMap.keys (filterReport (30 * Second) exampleTemplate
      ctxAfterFirstReport.lastReportProperties [("x", Value.int 100)]).filterReport ∧
    (filterReport (30 * Second) exampleTemplate
      ctxAfterFirstReport.lastReportProperties [("x", Value.int 100)]).filterReport = [] :=
  ⟨(withFilter_suppresses_inside_silentWin exampleEnv (30 * Second) ctxAfterFirstReport
    deviceA [("x", Value.int 100)] exampleTemplate "x" (Value.int 100) mappingX
    ⟨0, Value.int 100⟩ (Float64.ofInt 100) (Float64.ofInt 100) rfl
    (by decide) (by simp) rfl rfl rfl rfl (by decide) (by decide!)).2,
   by decide!⟩

/-- Claim C5, counterexamples.  First: with the stored value `L = -100` (accepted
at time 0), deviation 10 % and silent window 60 s, the smaller value `v = -105`
reported at 30 s, inside the silent window, is accepted:
`v - L = -5 >= L * 10 / 100 = -10`.  Second: with the stored int64 `L = 2^53 + 1`
and deviation 0 %, the smaller int64 `v = 2^53` reported at 30 s is accepted: both
convert to the same float64, and `0 >= 0`. -/
theorem withFilter_decrease_of_negative_accepted :
    ((-105 : Int) : ℚ) < ((-100 : Int) : ℚ) ∧
    Float64.toRat mappingX.Deviation ≥ 0 ∧
    GoMap.get (genPropMapping exampleTemplate.Mappings) "x" = some mappingX ∧
    GoMap.get ctxAfterNegativeReport.lastReportProperties "x" = some ⟨0, Value.int (-100)⟩ ∧
    ¬ (Time.Sub (30 * Second) 0 > silentWindow mappingX) ∧
    GoMap.get (filterReport (30 * Second) exampleTemplate
      ctxAfterNegativeReport.lastReportProperties [("x", Value.int (-105))]).filterReport "x"
      = some (Value.int (-105)) ∧
    GoMap.get (ReportDevicePropertiesWithFilter exampleEnv (30 * Second) ctxAfterNegativeReport
      deviceA [("x", Value.int (-105))]).ctx.lastReportProperties "x"
      = some ⟨30 * Second, Value.int (-105)⟩ ∧
    exactValue (Value.int64 (2 ^ 53)) < exactValue (Value.int64 (2 ^ 53 + 1)) ∧
    Float64.toRat mappingX0.Deviation ≥ 0 ∧
    GoMap.get (ctxStored template0 (Value.int64 (2 ^ 53 + 1))).lastReportProperties "x"
      = some ⟨0, Value.int64 (2 ^ 53 + 1)⟩ ∧
    ¬ (Time.Sub (30 * Second) 0 > silentWindow mappingX0) ∧
    (filterReport (30 * Second) template0
      (ctxStored template0 (Value.int64 (2 ^ 53 + 1))).lastReportProperties
      [("x", Value.int64 (2 ^ 53))]).filterReport = [("x", Value.int64 (2 ^ 53))] := by
  refine ⟨by decide!, by decide!, by decide!, by decide, by decide, by decide!, by decide!,
    by decide!, by decide!, by decide!, by decide!, by decide!⟩

/-- Claim C5, amended: for a mapped key with a stored numeric value `L`, a
deviation `d` and a numeric reported value `v` such that, after the conversion of
the values to float64, `L >= 0`, `d >= 0` and `v < L`, a report inside the silent
window is not accepted: the key is not in the filtered report and its filter state
is unchanged. -/
theorem withFilter_decrease_of_nonneg_suppressed (env : Env) (now : Int) (c : DmCtx)
    (device : DeviceInfo) (report : Report) (tpl : AccessTemplate)
    (key : String) (value : Value) (mapping : ModelMapping) (stored : ReportProperty)
    (v L : Float64)
    (htpl : GetAccessTemplates c device = Except.ok tpl)
    (hnd : (GoMap.keys report).Nodup)
    (hmem : (key, value) ∈ report)
    (hmap : GoMap.get (genPropMapping tpl.Mappings) key = some mapping)
    (hlast : GoMap.get c.lastReportProperties key = some stored)
    (hL : parseValueToFloat64 stored.Value = Except.ok L)
    (hv : parseValueToFloat64 value = Except.ok v)
    (hL0 : Float64.le Float64.zero L = true)
    (hd : Float64.le Float64.zero mapping.Deviation = true)
    (hlt : Float64.lt v L = true)
    (hwin : Time.Sub now stored.Time ≤ silentWindow mapping) :
    ReportDevicePropertiesWithFilter env now c device report
      = ReportDeviceProperties env
          { c with lastReportProperties :=
              (filterReport now tpl c.lastReportProperties report).lastReportProperties }
          device (filterReport now tpl c.lastReportProperties report).filterReport ∧
    key ∉ GoMap.keys (filterReport now tpl c.lastReportProperties report).filterReport ∧
    GoMap.get (ReportDevicePropertiesWithFilter env now c device report).ctx.lastReportProperties
      key = some stored := by
  have hneg : deviationTest v L mapping.Deviation = false :=
    deviationTest_false_of_decrease v L mapping.Deviation hL0 hd hlt
  have hrej := filterReport_reject now tpl c.lastReportProperties report key value mapping
    stored hnd hmem hmap hlast (not_lt.mpr hwin) (Or.inr (Or.inr ⟨v, L, hv, hL, hneg⟩))
  refine ⟨withFilter_eq env now c device report tpl htpl, ?_, ?_⟩
  · exact goMap_not_mem_keys_of_get_none _ _ hrej.1
  · rw [withFilter_last env now c device report tpl htpl]
    exact hrej.2

/-- Witness of C5 amended: stored `(x: 100)` of time 0, deviation 10 %, the
report `(x: 50)` at 30 s is suppressed and the filter state keeps `(0, 100)`. -/
theorem withFilter_decrease_of_nonneg_suppressed_witness :
    "x" ∉ GoMap.keys (filterReport (30 * Second) exampleTemplate
      ctxAfterFirstReport.lastReportProperties [("x", Value.int 50)]).filterReport ∧
    GoMap.get (ReportDevicePropertiesWithFilter exampleEnv (30 * Second) ctxAfterFirstReport
      deviceA [("x", Value.int 50)]).ctx.lastReportProperties "x"
      = some ⟨0, Value.int 100⟩ :=
  (withFilter_decrease_of_nonneg_suppressed exampleEnv (30 * Second) ctxAfterFirstReport
    deviceA [("x", Value.int 50)] exampleTemplate "x" (Value.int 50) mappingX
    ⟨0, Value.int 100⟩ (Float64.ofInt 50) (Float64.ofInt 100) rfl
    (by decide) (by simp) rfl rfl rfl rfl (by decide!) (by decide!) (by decide!)
    (by decide)).2

/-- Claim C6: after a call of `ReportDevicePropertiesWithFilter` for a device whose
access template exists, for every property key: if the key is in the filtered
report, its value there is the value just reported and the filter state of the key
is that value stamped `now`; if the key is not in the filtered report, the filter
entry of the key (or its absence) is what it was before the call.  When the access
template does not exist the context is unchanged. -/
theorem withFilter_state_reflects_accepted (env : Env) (now : Int) (c : DmCtx)
    (device : DeviceInfo) (report : Report) (hnd : (GoMap.keys report).Nodup) :
    (∀ tpl, GetAccessTemplates c device = Except.ok tpl → ∀ k,
      (∀ v, GoMap.get (filterReport now tpl c.lastReportProperties report).filterReport k
          = some v →
        GoMap.get report k = some v ∧
        GoMap.get (ReportDevicePropertiesWithFilter env now c device
          report).ctx.lastReportProperties k = some ⟨now, v⟩) ∧
      (GoMap.get (filterReport now tpl c.lastReportProperties report).filterReport k = none →
        GoMap.get (ReportDevicePropertiesWithFilter env now c device
          report).ctx.lastReportProperties k = GoMap.get c.lastReportProperties k)) ∧
    (∀ e, GetAccessTemplates c device = Except.error e →
      (ReportDevicePropertiesWithFilter env now c device report).ctx = c) := by
  constructor
  · intro tpl htpl k
    rw [withFilter_last env now c device report tpl htpl]
    have hinv := filterLoop_key_inv now (genPropMapping tpl.Mappings) report
      { filterReport := [], lastReportProperties := c.lastReportProperties } k
    unfold filterReport
    rcases hinv with ⟨h1, h2⟩ | ⟨w, hw, h1, h2⟩
    · constructor
      · intro v hv
        rw [h1] at hv
        simp [GoMap.get] at hv
      · intro _
        exact h2
    · constructor
      · intro v hv
        rw [h1] at hv
        cases hv
        exact ⟨goMap_get_of_mem_nodup report k w hnd hw, h2⟩
      · intro hnone
        rw [h1] at hnone
        cases hnone
  · intro e he
    unfold ReportDevicePropertiesWithFilter
    rw [he]

/-- Witness of C6: after the report `(x: 100, y: 3)` of device `a` at time 0 the
filter state of the accepted key `x` is `(0, 100)`. -/
theorem withFilter_state_reflects_accepted_witness :
    GoMap.get (ReportDevicePropertiesWithFilter exampleEnv 0 exampleCtx deviceA
      [("x", Value.int 100), ("y", Value.int 3)]).ctx.lastReportProperties "x"
      = some ⟨0, Value.int 100⟩ :=
  ((((withFilter_state_reflects_accepted exampleEnv 0 exampleCtx deviceA
    [("x", Value.int 100), ("y", Value.int 3)] (by decide)).1 exampleTemplate rfl "x").1
    (Value.int 100) (by decide!))).2

/-! ## The filter state is shared by all devices -/

theorem filterStep_of_unmapped (now : Int) (pm : GoMap ModelMapping) (st : FilterState)
    (kv : String × Value) (hpm : GoMap.get pm kv.1 = none) : filterStep now pm st kv = st := by
  unfold filterStep
  simp [hpm]

/-- The decision of the step on a pair depends on the filter state of its key only. -/
theorem filterStep_congr (now : Int) (pm : GoMap ModelMapping) (st st₂ : FilterState)
    (kv : String × Value)
    (h : GoMap.get st.lastReportProperties kv.1 = GoMap.get st₂.lastReportProperties kv.1) :
    (filterStep now pm st kv = st ∧ filterStep now pm st₂ kv = st₂) ∨
    (filterStep now pm st kv = accept now st kv.1 kv.2 ∧
      filterStep now pm st₂ kv = accept now st₂ kv.1 kv.2) := by
  obtain ⟨k, v⟩ := kv
  simp only [] at h
  cases hpm : GoMap.get pm k with
  | none =>
    exact Or.inl ⟨filterStep_of_unmapped now pm st (k, v) hpm,
      filterStep_of_unmapped now pm st₂ (k, v) hpm⟩
  | some m =>
    have hfo := firstOrOutOfSilentWin_congr now _ _ k m h
    have hlv := lastValue_congr _ _ k h
    cases hf : firstOrOutOfSilentWin now st.lastReportProperties k m with
    | true =>
      exact Or.inr ⟨filterStep_of_first now pm st k v m hpm hf,
        filterStep_of_first now pm st₂ k v m hpm (hfo ▸ hf)⟩
    | false =>
      have hf₂ : firstOrOutOfSilentWin now st₂.lastReportProperties k m = false := hfo ▸ hf
      cases hcalc : isCalculable v with
      | false =>
        exact Or.inl ⟨filterStep_of_reject now pm st k v m hpm hf (Or.inl hcalc),
          filterStep_of_reject now pm st₂ k v m hpm hf₂ (Or.inl hcalc)⟩
      | true =>
        obtain ⟨pv, hpv⟩ := parse_of_isCalculable v hcalc
        cases hL : parseValueToFloat64 (lastValue st.lastReportProperties k) with
        | error e =>
          exact Or.inl ⟨filterStep_of_reject now pm st k v m hpm hf (Or.inr (Or.inl ⟨e, hL⟩)),
            filterStep_of_reject now pm st₂ k v m hpm hf₂
              (Or.inr (Or.inl ⟨e, hlv ▸ hL⟩))⟩
        | ok L =>
          cases hdev : deviationTest pv L m.Deviation with
          | true =>
            exact Or.inr ⟨filterStep_of_deviation now pm st k v m pv L hpm hcalc hpv hL hdev,
              filterStep_of_deviation now pm st₂ k v m pv L hpm hcalc hpv (hlv ▸ hL) hdev⟩
          | false =>
            exact Or.inl ⟨filterStep_of_reject now pm st k v m hpm hf
                (Or.inr (Or.inr ⟨pv, L, hpv, hL, hdev⟩)),
              filterStep_of_reject now pm st₂ k v m hpm hf₂
                (Or.inr (Or.inr ⟨pv, L, hpv, hlv ▸ hL, hdev⟩))⟩

/-- The filtered report depends on the filter state of the keys of the report
only. -/
theorem filterLoop_congr (now : Int) (pm : GoMap ModelMapping) (report : Report)
    (st st₂ : FilterState) (hfr : st.filterReport = st₂.filterReport)
    (hlast : ∀ k ∈ GoMap.keys report,
      GoMap.get st.lastReportProperties k = GoMap.get st₂.lastReportProperties k) :
    (filterLoop now pm st report).filterReport = (filterLoop now pm st₂ report).filterReport := by
  induction report generalizing st st₂ with
  | nil => exact hfr
  | cons hd tl ih =>
    rw [filterLoop_cons, filterLoop_cons]
    have hhd : GoMap.get st.lastReportProperties hd.1 = GoMap.get st₂.lastReportProperties hd.1 :=
      hlast hd.1 (by simp [GoMap.keys])
    have htl : ∀ k ∈ GoMap.keys tl,
        GoMap.get st.lastReportProperties k = GoMap.get st₂.lastReportProperties k := by
      intro k hk
      exact hlast k (by
        simp only [GoMap.keys, List.map_cons, List.mem_cons]
        exact Or.inr hk)
    rcases filterStep_congr now pm st st₂ hd hhd with ⟨h1, h2⟩ | ⟨h1, h2⟩
    · rw [h1, h2]
      exact ih st st₂ hfr htl
    · rw [h1, h2]
      apply ih
      · simp [accept, hfr]
      · intro k hk
        by_cases hkk : k = hd.1
        · subst hkk
          simp [accept, goMap_get_set_self]
        · simp only [accept]
          rw [goMap_get_set_of_ne _ _ _ _ hkk, goMap_get_set_of_ne _ _ _ _ hkk]
          exact htl k hk

theorem reportDeviceProperties_err_effects (env : Env) (c c₂ : DmCtx) (info : DeviceInfo)
    (report : Report) :
    (ReportDeviceProperties env c info report).err
      = (ReportDeviceProperties env c₂ info report).err ∧
    (ReportDeviceProperties env c info report).effects
      = (ReportDeviceProperties env c₂ info report).effects := by
  unfold ReportDeviceProperties
  cases env.jsonMarshal (reportMessage env info report) <;> exact ⟨rfl, rfl⟩

/-- A call of the filter leaves the access templates as they are, and the filter
state of every key that is not in its report. -/
theorem withFilter_frame (env : Env) (now : Int) (c : DmCtx) (device : DeviceInfo)
    (report : Report) :
    (ReportDevicePropertiesWithFilter env now c device report).ctx.accessTemplates
      = c.accessTemplates ∧
    ∀ k, k ∉ GoMap.keys report →
      GoMap.get (ReportDevicePropertiesWithFilter env now c device
        report).ctx.lastReportProperties k = GoMap.get c.lastReportProperties k := by
  cases htpl : GetAccessTemplates c device with
  | error e =>
    have : (ReportDevicePropertiesWithFilter env now c device report).ctx = c := by
      unfold ReportDevicePropertiesWithFilter
      rw [htpl]
    rw [this]
    exact ⟨rfl, fun _ _ => rfl⟩
  | ok tpl =>
    constructor
    · rw [withFilter_eq env now c device report tpl htpl, reportDeviceProperties_ctx]
    · intro k hk
      rw [withFilter_last env now c device report tpl htpl]
      exact (filterLoop_not_in_keys now _ report _ k hk).2

/-- Claim C7, counterexample: the devices `a` and `b` are distinct and share the
property `x`.  After `a` reported `(x: 100)` at time 0, the report `(x: 100)`
of `b` at 30 s is filtered to the empty report; without the call of `a` the same
call of `b` publishes `x`. -/
theorem withFilter_state_shared_by_devices :
    deviceA.Name ≠ deviceB.Name ∧
    (filterReport (30 * Second) exampleTemplate
      (ReportDevicePropertiesWithFilter exampleEnv 0 exampleCtx deviceA
        [("x", Value.int 100)]).ctx.lastReportProperties
      [("x", Value.int 100)]).filterReport = [] ∧
    (filterReport (30 * Second) exampleTemplate exampleCtx.lastReportProperties
      [("x", Value.int 100)]).filterReport = [("x", Value.int 100)] ∧
    (ReportDevicePropertiesWithFilter exampleEnv (30 * Second)
      (ReportDevicePropertiesWithFilter exampleEnv 0 exampleCtx deviceA
        [("x", Value.int 100)]).ctx deviceB [("x", Value.int 100)]).effects
      = [Effect.publish ⟨1, "b/report", ""⟩] ∧
    (ReportDevicePropertiesWithFilter exampleEnv (30 * Second) exampleCtx deviceB
      [("x", Value.int 100)]).effects = [Effect.publish ⟨1, "b/report", "x"⟩] := by
  refine ⟨by decide, by decide!, by decide!, by decide!, by decide!⟩

/-- Claim C7, amended: the filter state is one table keyed by property name, shared
by all devices.  When no key of the report of `B` is a key of the report of `A`,
the call for `A` does not change the later call for `B`: the filtered report, the
returned error and the publish of the call for `B` are the same whether or not the
call for `A` happened before it. -/
theorem withFilter_independent_of_disjoint_report (env : Env) (nowA nowB : Int) (c : DmCtx)
    (A B : DeviceInfo) (reportA reportB : Report)
    (hdisj : ∀ k ∈ GoMap.keys reportB, k ∉ GoMap.keys reportA) :
    (∀ tpl, GetAccessTemplates c B = Except.ok tpl →
      (filterReport nowB tpl
        (ReportDevicePropertiesWithFilter env nowA c A reportA).ctx.lastReportProperties
        reportB).filterReport
      = (filterReport nowB tpl c.lastReportProperties reportB).filterReport) ∧
    (ReportDevicePropertiesWithFilter env nowB
      (ReportDevicePropertiesWithFilter env nowA c A reportA).ctx B reportB).err
      = (ReportDevicePropertiesWithFilter env nowB c B reportB).err ∧
    (ReportDevicePropertiesWithFilter env nowB
      (ReportDevicePropertiesWithFilter env nowA c A reportA).ctx B reportB).effects
      = (ReportDevicePropertiesWithFilter env nowB c B reportB).effects := by
  obtain ⟨hat, hframe⟩ := withFilter_frame env nowA c A reportA
  have hfr : ∀ tpl,
      (filterReport nowB tpl
        (ReportDevicePropertiesWithFilter env nowA c A reportA).ctx.lastReportProperties
        reportB).filterReport
      = (filterReport nowB tpl c.lastReportProperties reportB).filterReport := by
    intro tpl
    unfold filterReport
    apply filterLoop_congr
    · rfl
    · intro k hk
      exact hframe k (hdisj k hk)
  have hget : GetAccessTemplates (ReportDevicePropertiesWithFilter env nowA c A reportA).ctx B
      = GetAccessTemplates c B := by
    unfold GetAccessTemplates
    rw [hat]
  refine ⟨fun tpl _ => hfr tpl, ?_⟩
  cases htpl : GetAccessTemplates c B with
  | error e =>
    rw [withFilter_of_error env nowB c B reportB e htpl,
      withFilter_of_error env nowB _ B reportB e (hget.trans htpl)]
    exact ⟨rfl, rfl⟩
  | ok tpl =>
    rw [withFilter_eq env nowB c B reportB tpl htpl,
      withFilter_eq env nowB _ B reportB tpl (hget.trans htpl), hfr tpl]
    exact reportDeviceProperties_err_effects env _ _ B _

/-- Witness of C7 amended: the report `(y: 3)` of device `b` at 30 s has the same
publish after the report `(x: 100)` of device `a` as without it. -/
theorem withFilter_independent_of_disjoint_report_witness :
    (ReportDevicePropertiesWithFilter exampleEnv (30 * Second)
      (ReportDevicePropertiesWithFilter exampleEnv 0 exampleCtx deviceA
        [("x", Value.int 100)]).ctx deviceB [("y", Value.int 3)]).effects
      = (ReportDevicePropertiesWithFilter exampleEnv (30 * Second) exampleCtx deviceB
          [("y", Value.int 3)]).effects :=
  (withFilter_independent_of_disjoint_report exampleEnv 0 (30 * Second) exampleCtx
    deviceA deviceB [("x", Value.int 100)] [("y", Value.int 3)] (by decide)).2.2

/-- Claim C8, counterexample: the access template of device `a` exists, its first
report of `(x: v)` with `v` of a dynamic type that JSON cannot encode is accepted
by the filter, `json.Marshal` fails, and the call returns that error without any
publish. -/
theorem withFilter_no_publish_on_marshal_error :
    GetAccessTemplates exampleCtx deviceA = Except.ok exampleTemplate ∧
    (filterReport 0 exampleTemplate exampleCtx.lastReportProperties
      [("x", Value.other "chan int")]).filterReport = [("x", Value.other "chan int")] ∧
    (ReportDevicePropertiesWithFilter exampleEnv 0 exampleCtx deviceA
      [("x", Value.other "chan int")]).effects = [] ∧
    (ReportDevicePropertiesWithFilter exampleEnv 0 exampleCtx deviceA
      [("x", Value.other "chan int")]).err = some (Error.text "json: unsupported type") := by
  refine ⟨rfl, by decide!, by decide!, by decide!⟩

/-- Claim C8, amended: for a device whose access template exists and every input
report, the call hands the filtered report to `ReportDeviceProperties` once, also
when the filtered report is empty: when the report message marshals to a payload,
the call makes exactly one publish, of that payload on the report topic of the
device with its quality of service, and returns the error of the publish; when
`json.Marshal` fails the call returns its error and publishes nothing.  When the
access template does not exist the call returns `ErrAccessTemplateNotExist`,
publishes nothing and leaves the context, hence the filter state, unchanged. -/
theorem withFilter_publishes_once (env : Env) (now : Int) (c : DmCtx)
    (device : DeviceInfo) (report : Report) :
    (∀ tpl, GetAccessTemplates c device = Except.ok tpl →
      (∀ pld,
        env.jsonMarshal (reportMessage env device
          (filterReport now tpl c.lastReportProperties report).filterReport) = Except.ok pld →
        (ReportDevicePropertiesWithFilter env now c device report).effects
          = [Effect.publish ⟨device.DeviceTopic.Report.QOS, device.DeviceTopic.Report.Topic,
              pld⟩] ∧
        (ReportDevicePropertiesWithFilter env now c device report).err
          = env.mqttPublish ⟨device.DeviceTopic.Report.QOS, device.DeviceTopic.Report.Topic,
              pld⟩) ∧
      (∀ e,
        env.jsonMarshal (reportMessage env device
          (filterReport now tpl c.lastReportProperties report).filterReport)
          = Except.error e →
        (ReportDevicePropertiesWithFilter env now c device report).effects = [] ∧
        (ReportDevicePropertiesWithFilter env now c device report).err = some e)) ∧
    (GoMap.get c.accessTemplates device.AccessTemplate = none →
      (ReportDevicePropertiesWithFilter env now c device report).err
        = some Error.ErrAccessTemplateNotExist ∧
      (ReportDevicePropertiesWithFilter env now c device report).effects = [] ∧
      (ReportDevicePropertiesWithFilter env now c device report).ctx = c) := by
  constructor
  · intro tpl htpl
    rw [withFilter_eq env now c device report tpl htpl]
    constructor
    · intro pld hpld
      unfold ReportDeviceProperties
      rw [hpld]
      exact ⟨rfl, rfl⟩
    · intro e he
      unfold ReportDeviceProperties
      rw [he]
      exact ⟨rfl, rfl⟩
  · intro hnone
    unfold ReportDevicePropertiesWithFilter GetAccessTemplates
    rw [hnone]
    exact ⟨rfl, rfl, rfl⟩

/-- Witness of C8 amended: the report `(x: 100)` of device `a` at 30 s, after the
same report at time 0, is filtered to the empty report and still makes one
publish on the topic `a/report`. -/
theorem withFilter_publishes_once_witness :
    (filterReport (30 * Second) exampleTemplate ctxAfterFirstReport.lastReportProperties
      [("x", Value.int 100)]).filterReport = [] ∧
    (ReportDevicePropertiesWithFilter exampleEnv (30 * Second) ctxAfterFirstReport deviceA
      [("x", Value.int 100)]).effects = [Effect.publish ⟨1, "a/report", ""⟩] :=
  ⟨by decide!,
   (((withFilter_publishes_once exampleEnv (30 * Second) ctxAfterFirstReport deviceA
    [("x", Value.int 100)]).1 exampleTemplate rfl).1 "" (by decide!)).1⟩

/-! ## The callback registry -/

/-- Claim C9, counterexample: on the fresh example context the registration of a
`nil` delta callback succeeds and leaves the slot empty, and the registration that
follows it succeeds too instead of failing with "already registered". -/
theorem register_nil_then_register_succeeds :
    exampleCtx.deltaCb.isNone = true ∧
    (RegisterDeltaCallback exampleCtx none).err = none ∧
    (RegisterDeltaCallback exampleCtx none).ctx.deltaCb.isNone = true ∧
    (RegisterDeltaCallback (RegisterDeltaCallback exampleCtx none).ctx
      (some exampleDeltaCb)).err = none ∧
    (RegisterDeltaCallback (RegisterDeltaCallback exampleCtx none).ctx
      (some exampleDeltaCb)).ctx.deltaCb.isSome = true :=
  ⟨rfl, rfl, rfl, rfl, rfl⟩

/-- Claim C9, amended: on each of the three slots (delta, event, property-get), of
two successive registrations on the empty slot of which the first registers a
callback that is not `nil`, the first succeeds and the second fails with the
"already registered" error of the slot and leaves the slot holding the first
callback; and a registration on one slot never changes the other two slots. -/
theorem register_settable_once (c : DmCtx) :
    (∀ (cb₁ : DeltaCallback) (cb₂ : Option DeltaCallback), c.deltaCb = none →
      (RegisterDeltaCallback c (some cb₁)).err = none ∧
      (RegisterDeltaCallback (RegisterDeltaCallback c (some cb₁)).ctx cb₂).err
        = some (Error.text "delta callback already registered") ∧
      (RegisterDeltaCallback (RegisterDeltaCallback c (some cb₁)).ctx cb₂).ctx.deltaCb
        = some cb₁) ∧
    (∀ (cb₁ : EventCallback) (cb₂ : Option EventCallback), c.eventCb = none →
      (RegisterEventCallback c (some cb₁)).err = none ∧
      (RegisterEventCallback (RegisterEventCallback c (some cb₁)).ctx cb₂).err
        = some (Error.text "event callback already registered") ∧
      (RegisterEventCallback (RegisterEventCallback c (some cb₁)).ctx cb₂).ctx.eventCb
        = some cb₁) ∧
    (∀ (cb₁ : PropertyGetCallback) (cb₂ : Option PropertyGetCallback),
      c.propertyGetCb = none →
      (RegisterPropertyGetCallback c (some cb₁)).err = none ∧
      (RegisterPropertyGetCallback (RegisterPropertyGetCallback c (some cb₁)).ctx cb₂).err
        = some (Error.text "property get callback already registered") ∧
      (RegisterPropertyGetCallback
        (RegisterPropertyGetCallback c (some cb₁)).ctx cb₂).ctx.propertyGetCb = some cb₁) ∧
    (∀ cb : Option DeltaCallback,
      (RegisterDeltaCallback c cb).ctx.eventCb = c.eventCb ∧
      (RegisterDeltaCallback c cb).ctx.propertyGetCb = c.propertyGetCb) ∧
    (∀ cb : Option EventCallback,
      (RegisterEventCallback c cb).ctx.deltaCb = c.deltaCb ∧
      (RegisterEventCallback c cb).ctx.propertyGetCb = c.propertyGetCb) ∧
    (∀ cb : Option PropertyGetCallback,
      (RegisterPropertyGetCallback c cb).ctx.deltaCb = c.deltaCb ∧
      (RegisterPropertyGetCallback c cb).ctx.eventCb = c.eventCb) := by
  refine ⟨?_, ?_, ?_, ?_, ?_, ?_⟩
  · intro cb₁ cb₂ h
    simp [RegisterDeltaCallback, h]
  · intro cb₁ cb₂ h
    simp [RegisterEventCallback, h]
  · intro cb₁ cb₂ h
    simp [RegisterPropertyGetCallback, h]
  · intro cb
    unfold RegisterDeltaCallback
    split <;> exact ⟨rfl, rfl⟩
  · intro cb
    unfold RegisterEventCallback
    split <;> exact ⟨rfl, rfl⟩
  · intro cb
    unfold RegisterPropertyGetCallback
    split <;> exact ⟨rfl, rfl⟩

/-- Witness of C9 amended: on the fresh example context the second registration of
a delta callback fails. -/
theorem register_settable_once_witness :
    (RegisterDeltaCallback (RegisterDeltaCallback exampleCtx (some exampleDeltaCb)).ctx
      (some exampleDeltaCb)).err = some (Error.text "delta callback already registered") :=
  ((register_settable_once exampleCtx).1 exampleDeltaCb (some exampleDeltaCb) rfl).2.1

/-! ## Processing of delta messages -/

/-- Claim C10: in a context with no registered delta callback, `processDelta`
returns no error, invokes no callback and leaves the context as it is, for every
message (every device name, every content). -/
theorem processDelta_without_callback (env : Env) (c : DmCtx) (msg : Message)
    (h : c.deltaCb = none) :
    (processDelta env c msg).err = none ∧
    (processDelta env c msg).effects = [] ∧
    (processDelta env c msg).ctx = c := by
  simp [processDelta, h]

/-- Witness of C10: a delta message for the unknown device `z`, with a content that
does not decode, is discarded by the example context. -/
theorem processDelta_without_callback_witness :
    (processDelta exampleEnv exampleCtx
      { Kind := MessageDeviceDelta, Metadata := [(KeyDevice, "z")],
        Content := LazyValue.doc "not json" }).err = none :=
  (processDelta_without_callback exampleEnv exampleCtx
    { Kind := MessageDeviceDelta, Metadata := [(KeyDevice, "z")],
      Content := LazyValue.doc "not json" } rfl).1

/-- Claim C11, counterexample: the device `z` is not in the registry, and a delta
message for it is not rejected with `ErrDeviceNotExist` when no delta callback is
registered (no error), when its content does not decode (the decoding error), or
when its content is not a property map (`ErrInvalidDelta`). -/
theorem processDelta_unknown_device_other_results :
    GoMap.get exampleCtx.devices (metadataOf (messageForZ MessageDeviceDelta "x=1") KeyDevice)
      = none ∧
    (processDelta exampleEnv exampleCtx (messageForZ MessageDeviceDelta "x=1")).err = none ∧
    (processDelta exampleEnv ctxWithCallbacks (messageForZ MessageDeviceDelta "oops")).err
      = some (Error.text "invalid character") ∧
    (processDelta exampleEnv ctxWithCallbacks (messageForZ MessageDeviceDelta "[]")).err
      = some Error.ErrInvalidDelta := by
  refine ⟨by decide, by decide, by decide, by decide⟩

/-- Claim C11, amended: for every delta message whose device name is not in the
device registry, `processDelta` does not invoke the delta callback and leaves the
context as it is; when a delta callback is registered and the content decodes to a
property map, it rejects the message with `ErrDeviceNotExist`. -/
theorem processDelta_unknown_device (env : Env) (c : DmCtx) (msg : Message)
    (hdev : GoMap.get c.devices (metadataOf msg KeyDevice) = none) :
    (processDelta env c msg).effects = [] ∧
    (processDelta env c msg).ctx = c ∧
    (∀ (cb : DeltaCallback) (delta : GoMap Value), c.deltaCb = some cb →
      env.ExactUnmarshal msg.Content = Except.ok ⟨⟨Properties.object delta⟩⟩ →
      (processDelta env c msg).err = some Error.ErrDeviceNotExist) := by
  refine ⟨?_, ?_, ?_⟩
  · unfold processDelta
    simp only [hdev]
    split
    · rfl
    · split
      · rfl
      · split <;> rfl
  · unfold processDelta
    simp only [hdev]
    split
    · rfl
    · split
      · rfl
      · split <;> rfl
  · intro cb delta hcb hdec
    simp [processDelta, hcb, hdec, hdev]

/-- Witness of C11 amended: with a delta callback registered, the delta message
`x=1` for the unknown device `z` is rejected with `ErrDeviceNotExist`. -/
theorem processDelta_unknown_device_witness :
    (processDelta exampleEnv ctxWithCallbacks (messageForZ MessageDeviceDelta "x=1")).err
      = some Error.ErrDeviceNotExist :=
  (processDelta_unknown_device exampleEnv ctxWithCallbacks
    (messageForZ MessageDeviceDelta "x=1") (by decide)).2.2 exampleDeltaCb
    [("x", Value.int 1)] rfl (by decide)

/-! ## Processing of event messages -/

/-- Claim C12, counterexample: with an event callback registered, an event message
for the unknown device `z` whose content does not decode makes `processEvent`
return the decoding error. -/
theorem processEvent_unknown_device_decode_error :
    GoMap.get ctxWithCallbacks.devices
      (metadataOf (messageForZ MessageDeviceEvent "oops") KeyDevice) = none ∧
    ctxWithCallbacks.eventCb.isSome = true ∧
    (processEvent exampleEnv ctxWithCallbacks (messageForZ MessageDeviceEvent "oops")).err
      = some (Error.text "invalid character") := by
  refine ⟨by decide, rfl, by decide⟩

/-- Claim C12, amended: for every event message whose device name is not in the
device registry, `processEvent` does not invoke the event callback and leaves the
context as it is; it returns no error when no event callback is registered or the
content decodes to an event, and returns the decoding error when an event callback
is registered and the content does not decode. -/
theorem processEvent_unknown_device (env : Env) (c : DmCtx) (msg : Message)
    (hdev : GoMap.get c.devices (metadataOf msg KeyDevice) = none) :
    (processEvent env c msg).effects = [] ∧
    (processEvent env c msg).ctx = c ∧
    (c.eventCb = none → (processEvent env c msg).err = none) ∧
    (∀ event, env.Unmarshal msg.Content = Except.ok event →
      (processEvent env c msg).err = none) ∧
    (∀ (cb : EventCallback) (e : Error), c.eventCb = some cb →
      env.Unmarshal msg.Content = Except.error e →
      (processEvent env c msg).err = some e) := by
  refine ⟨?_, ?_, ?_, ?_, ?_⟩
  · unfold processEvent
    simp only [hdev]
    split
    · rfl
    · split <;> rfl
  · unfold processEvent
    simp only [hdev]
    split
    · rfl
    · split <;> rfl
  · intro h
    simp [processEvent, h]
  · intro event hev
    unfold processEvent
    simp only [hdev, hev]
    split <;> rfl
  · intro cb e hcb hev
    simp [processEvent, hcb, hev]

/-- Witness of C12 amended: with an event callback registered, the event message
`report` for the unknown device `z` is dropped without error. -/
theorem processEvent_unknown_device_witness :
    (processEvent exampleEnv ctxWithCallbacks (messageForZ MessageDeviceEvent "report")).err
      = none :=
  (processEvent_unknown_device exampleEnv ctxWithCallbacks
    (messageForZ MessageDeviceEvent "report") (by decide)).2.2.2.1
    { EventType := "report", Payload := Value.nil } (by decide)

/-! ## The get-properties exchange -/

theorem goMap_get_delete_self {α : Type} (m : GoMap α) (k : String) :
    GoMap.get (GoMap.delete m k) k = none := by
  induction m with
  | nil => rfl
  | cons hd tl ih =>
    obtain ⟨k₁, v₁⟩ := hd
    by_cases h₁ : k₁ = k
    · simp [GoMap.delete, h₁, ih]
    · simp [GoMap.delete, GoMap.get, h₁, ih]

theorem loadOrStore_of_present (m : GoMap ResponseValue) (key : String)
    (value slot : ResponseValue) (h : GoMap.get m key = some slot) :
    LoadOrStore m key value = (m, true) := by
  simp [LoadOrStore, h]

theorem loadOrStore_of_absent (m : GoMap ResponseValue) (key : String)
    (value : ResponseValue) (h : GoMap.get m key = none) :
    LoadOrStore m key value = (GoMap.set m key value, false) := by
  simp [LoadOrStore, h]

/-- The context `ctxPending` is the one in which a call of `GetDeviceProperties`
for device `a` on the fresh example context waits. -/
theorem ctxPending_reached :
    (match issueGetDeviceProperties exampleEnv exampleCtx deviceA 0 with
      | Issued.waiting ctx _ => ctx.response
      | Issued.returned _ => []) = ctxPending.response := by
  decide

/-- Claim C13, counterexample: device `a` has an entry in the pending table and the
broker refuses the publish; the call fails with the error of the publish, not with
"waiting for getting properties". -/
theorem getDeviceProperties_pending_publish_error :
    GoMap.get ctxPending.response deviceA.Name = some (ResponseValue.chan 0) ∧
    (GetDeviceProperties failingBrokerEnv ctxPending deviceA 1 WaitEvent.timeout).err
      = some (Error.text "mqtt: not connected") := by
  refine ⟨by decide, by decide⟩

/-- Claim C13, amended: for a device that already has an entry in the pending
table, a call of `GetDeviceProperties` returns before its `select` (it does not
wait), with an error and no shadow, and the context after the call, hence the
pending table, is the one before it; the error is "waiting for getting properties"
when marshalling and publishing the request gave no error. -/
theorem getDeviceProperties_pending (env : Env) (c : DmCtx) (info : DeviceInfo) (ch : Nat)
    (ev : WaitEvent) (slot : ResponseValue)
    (hpend : GoMap.get c.response info.Name = some slot) :
    (∃ out, issueGetDeviceProperties env c info ch = Issued.returned out) ∧
    (GetDeviceProperties env c info ch ev).ctx = c ∧
    (GetDeviceProperties env c info ch ev).props = none ∧
    (GetDeviceProperties env c info ch ev).err ≠ none ∧
    (∀ pld, env.jsonMarshalInfo info = Except.ok pld →
      env.mqttPublish ⟨info.DeviceTopic.Get.QOS, info.DeviceTopic.Get.Topic, pld⟩ = none →
      (GetDeviceProperties env c info ch ev).err
        = some (Error.text "waiting for getting properties")) := by
  have hls := loadOrStore_of_present c.response info.Name (ResponseValue.chan ch) slot hpend
  unfold GetDeviceProperties issueGetDeviceProperties
  cases hm : env.jsonMarshalInfo info with
  | error e => simp
  | ok pld =>
    cases hp : env.mqttPublish
        ⟨info.DeviceTopic.Get.QOS, info.DeviceTopic.Get.Topic, pld⟩ with
    | some e => simp [hp]
    | none => simp [hp, hls]

/-- Witness of C13 amended: while a call for device `a` waits, a second call for
`a` fails with "waiting for getting properties". -/
theorem getDeviceProperties_pending_witness :
    (GetDeviceProperties exampleEnv ctxPending deviceA 1 WaitEvent.timeout).ctx = ctxPending ∧
    (GetDeviceProperties exampleEnv ctxPending deviceA 1 WaitEvent.timeout).err
      = some (Error.text "waiting for getting properties") :=
  ⟨(getDeviceProperties_pending exampleEnv ctxPending deviceA 1 WaitEvent.timeout
      (ResponseValue.chan 0) rfl).2.1,
   (getDeviceProperties_pending exampleEnv ctxPending deviceA 1 WaitEvent.timeout
      (ResponseValue.chan 0) rfl).2.2.2.2 "a" rfl rfl⟩

/-- Claim C14, the code at the failing input: while a call for device `a` waits, a
second call for `a` publishes its request on the topic `a/get` and then fails with
"waiting for getting properties", without having inserted a slot. -/
theorem getDeviceProperties_publishes_before_insert :
    GoMap.get ctxPending.response deviceA.Name = some (ResponseValue.chan 0) ∧
    (GetDeviceProperties exampleEnv ctxPending deviceA 1 WaitEvent.timeout).err
      = some (Error.text "waiting for getting properties") ∧
    (GetDeviceProperties exampleEnv ctxPending deviceA 1 WaitEvent.timeout).effects
      = [Effect.publish ⟨1, "a/get", "a"⟩] ∧
    (GetDeviceProperties exampleEnv ctxPending deviceA 1 WaitEvent.timeout).ctx.response
      = [("a", ResponseValue.chan 0)] := by
  refine ⟨by decide, by decide, by decide, by decide⟩

/-- Claim C15: a call of `GetDeviceProperties` that inserted its slot leaves, when
it returns with the delivered shadow or with the timeout, no entry of its device
in the pending table, whatever the other goroutines did to the context while it
waited; and a call whose publish fails returns the error of the publish with the
context, hence the pending table, as it was. -/
theorem getDeviceProperties_leaves_no_entry (env : Env) (c : DmCtx) (info : DeviceInfo)
    (ch : Nat) (ev : WaitEvent) :
    (∀ ctx effects, issueGetDeviceProperties env c info ch = Issued.waiting ctx effects →
      GoMap.get ctx.response info.Name = some (ResponseValue.chan ch) ∧
      (∀ ctx₂ : DmCtx,
        GoMap.get (awaitGetDeviceProperties ctx₂ info effects ev).ctx.response info.Name
          = none) ∧
      GoMap.get (GetDeviceProperties env c info ch ev).ctx.response info.Name = none) ∧
    (∀ pld e, env.jsonMarshalInfo info = Except.ok pld →
      env.mqttPublish ⟨info.DeviceTopic.Get.QOS, info.DeviceTopic.Get.Topic, pld⟩ = some e →
      (∃ out, issueGetDeviceProperties env c info ch = Issued.returned out) ∧
      (GetDeviceProperties env c info ch ev).ctx = c ∧
      (GetDeviceProperties env c info ch ev).err = some e) := by
  have hawait : ∀ (ctx₂ : DmCtx) (effects : List Effect),
      GoMap.get (awaitGetDeviceProperties ctx₂ info effects ev).ctx.response info.Name
        = none := by
    intro ctx₂ effects
    unfold awaitGetDeviceProperties
    cases ev <;> exact goMap_get_delete_self _ _
  constructor
  · intro ctx effects hissue
    refine ⟨?_, fun ctx₂ => hawait ctx₂ effects, ?_⟩
    · unfold issueGetDeviceProperties at hissue
      cases hm : env.jsonMarshalInfo info with
      | error e => simp [hm] at hissue
      | ok pld =>
        cases hp : env.mqttPublish
            ⟨info.DeviceTopic.Get.QOS, info.DeviceTopic.Get.Topic, pld⟩ with
        | some e => simp [hm, hp] at hissue
        | none =>
          cases hg : GoMap.get c.response info.Name with
          | some slot =>
            simp [hm, hp, loadOrStore_of_present _ _ _ slot hg] at hissue
          | none =>
            simp [hm, hp, loadOrStore_of_absent _ _ _ hg] at hissue
            rw [← hissue.1]
            exact goMap_get_set_self _ _ _
    · unfold GetDeviceProperties
      rw [hissue]
      exact hawait ctx effects
  · intro pld e hm hp
    unfold GetDeviceProperties issueGetDeviceProperties
    simp [hm, hp]

/-- Witness of C15: on the fresh example context the call for device `a` inserts
its slot, times out, and leaves no entry for `a`. -/
theorem getDeviceProperties_leaves_no_entry_witness :
    GoMap.get (GetDeviceProperties exampleEnv exampleCtx deviceA 0
      WaitEvent.timeout).ctx.response deviceA.Name = none :=
  ((getDeviceProperties_leaves_no_entry exampleEnv exampleCtx deviceA 0
    WaitEvent.timeout).1 ctxPending [Effect.publish ⟨1, "a/get", "a"⟩] rfl).2.2

/-- Claim C16: a response message whose device name has no entry in the pending
table makes `processResponse` fail with `ErrResponseChannelNotExist`; nothing is
handed over or kept, the context, hence the pending table, is unchanged, and every
later call of `GetDeviceProperties` gives what it gives without the response. -/
theorem processResponse_without_pending (env : Env) (c : DmCtx) (msg : Message)
    (ready : Bool)
    (hnone : GoMap.get c.response (metadataOf msg KeyDevice) = none) :
    (processResponse env c msg ready).err = some Error.ErrResponseChannelNotExist ∧
    (processResponse env c msg ready).effects = [] ∧
    (processResponse env c msg ready).ctx = c ∧
    (∀ (env₂ : Env) (info : DeviceInfo) (ch : Nat) (ev : WaitEvent),
      GetDeviceProperties env₂ (processResponse env c msg ready).ctx info ch ev
        = GetDeviceProperties env₂ c info ch ev) := by
  have h : processResponse env c msg ready
      = { ctx := c, err := some Error.ErrResponseChannelNotExist, effects := [] } := by
    unfold processResponse
    simp only [hnone]
  rw [h]
  exact ⟨rfl, rfl, rfl, fun _ _ _ _ => rfl⟩

/-- Witness of C16: after the call for device `a` timed out and removed its slot,
the late response for `a` is dropped with `ErrResponseChannelNotExist`. -/
theorem processResponse_without_pending_witness :
    (processResponse exampleEnv
      (GetDeviceProperties exampleEnv exampleCtx deviceA 0 WaitEvent.timeout).ctx
      (messageForA MessageResponse "shadow") true).err
      = some Error.ErrResponseChannelNotExist :=
  (processResponse_without_pending exampleEnv
    (GetDeviceProperties exampleEnv exampleCtx deviceA 0 WaitEvent.timeout).ctx
    (messageForA MessageResponse "shadow") true (by decide)).1

/-! ## A deviation threshold that is not positive -/

/-- Claim C17, counterexample: stored `x = -Inf` (float64) of time 0, deviation
10 %, so that the threshold `L * d / 100` is `-Inf <= 0`; the same value reported
at 30 s, inside the silent window, is suppressed, because `v - L` is NaN and
`NaN >= -Inf` is false. -/
theorem withFilter_infinite_value_suppressed :
    GoMap.get (ctxStored exampleTemplate
      (Value.float64 (Float64.inf true))).lastReportProperties "x"
      = some ⟨0, Value.float64 (Float64.inf true)⟩ ∧
    isCalculable (Value.float64 (Float64.inf true)) = true ∧
    Float64.le (Float64.div (Float64.mul (Float64.inf true) mappingX.Deviation)
      Float64.hundred) Float64.zero = true ∧
    ¬ (Time.Sub (30 * Second) 0 > silentWindow mappingX) ∧
    (filterReport (30 * Second) exampleTemplate
      (ctxStored exampleTemplate (Value.float64 (Float64.inf true))).lastReportProperties
      [("x", Value.float64 (Float64.inf true))]).filterReport = [] ∧
    GoMap.get (ReportDevicePropertiesWithFilter exampleEnv (30 * Second)
      (ctxStored exampleTemplate (Value.float64 (Float64.inf true))) deviceA
      [("x", Value.float64 (Float64.inf true))]).ctx.lastReportProperties "x"
      = some ⟨0, Value.float64 (Float64.inf true)⟩ := by
  refine ⟨by decide!, by decide, by decide!, by decide, by decide!, by decide!⟩

/-- Claim C17, amended: for a mapped key with a stored numeric value whose float64
`L` is finite and a deviation `d` for which the float64 threshold `L * d / 100` is
`<= 0`, a report of a numeric value with the same float64 is accepted at any time,
in particular inside the silent window: the key is in the filtered report with
the reported value and its filter state becomes `(now, value)`. -/
theorem withFilter_never_suppresses_nonpositive_threshold (env : Env) (now : Int)
    (c : DmCtx) (device : DeviceInfo) (report : Report) (tpl : AccessTemplate)
    (key : String) (value : Value) (mapping : ModelMapping) (stored : ReportProperty)
    (L : Float64)
    (htpl : GetAccessTemplates c device = Except.ok tpl)
    (hnd : (GoMap.keys report).Nodup)
    (hmem : (key, value) ∈ report)
    (hmap : GoMap.get (genPropMapping tpl.Mappings) key = some mapping)
    (hlast : GoMap.get c.lastReportProperties key = some stored)
    (hL : parseValueToFloat64 stored.Value = Except.ok L)
    (hcalc : isCalculable value = true)
    (hv : parseValueToFloat64 value = Except.ok L)
    (hfin : Float64.isFinite L = true)
    (hthr : Float64.le (Float64.div (Float64.mul L mapping.Deviation) Float64.hundred)
      Float64.zero = true) :
    ReportDevicePropertiesWithFilter env now c device report
      = ReportDeviceProperties env
          { c with lastReportProperties :=
              (filterReport now tpl c.lastReportProperties report).lastReportProperties }
          device (filterReport now tpl c.lastReportProperties report).filterReport ∧
    GoMap.get (filterReport now tpl c.lastReportProperties report).filterReport key
      = some value ∧
    GoMap.get (ReportDevicePropertiesWithFilter env now c device report).ctx.lastReportProperties
      key = some ⟨now, value⟩ := by
  refine ⟨withFilter_eq env now c device report tpl htpl, ?_⟩
  rw [withFilter_last env now c device report tpl htpl]
  have hdev : deviationTest L L mapping.Deviation = true := by
    cases L with
    | nan => simp [Float64.isFinite] at hfin
    | inf s => simp [Float64.isFinite] at hfin
    | fin s n =>
      rw [deviationTest_self]
      exact hthr
  exact filterReport_accept_deviation now tpl c.lastReportProperties report key value mapping
    stored L L hnd hmem hmap hlast hcalc hv hL hdev

/-- Witness of C17 amended: stored `(x: -100)` of time 0, deviation 10 %, silent
window 60 s; the same value reported at 30 s is accepted and its timestamp is
refreshed. -/
theorem withFilter_never_suppresses_nonpositive_threshold_witness :
    ¬ (Time.Sub (30 * Second) 0 > silentWindow mappingX) ∧
    GoMap.get (filterReport (30 * Second) exampleTemplate
      ctxAfterNegativeReport.lastReportProperties [("x", Value.int (-100))]).filterReport "x"
      = some (Value.int (-100)) ∧
    GoMap.get (ReportDevicePropertiesWithFilter exampleEnv (30 * Second)
      ctxAfterNegativeReport deviceA [("x", Value.int (-100))]).ctx.lastReportProperties "x"
      = some ⟨30 * Second, Value.int (-100)⟩ :=
  ⟨by decide,
   (withFilter_never_suppresses_nonpositive_threshold exampleEnv (30 * Second)
    ctxAfterNegativeReport deviceA [("x", Value.int (-100))] exampleTemplate "x"
    (Value.int (-100)) mappingX ⟨0, Value.int (-100)⟩ (Float64.ofInt (-100)) rfl
    (by decide) (by simp) rfl rfl rfl rfl rfl (by decide!) (by decide!)).2⟩

end dmcontext
